import Mathlib

/-!
Verification development for the `anki-acp` add-on.

We give a shallow embedding of the core of the repository:

* `src/lecture_search.py` — query sanitization, reciprocal-rank-fusion merge
  and MCQ search (`LectureSearch` namespace);
* `src/acp_client.py` — the JSON-RPC correlation layer: the pending-request
  table, the read loop / dispatch state machine, the synchronous `_call`,
  `start` (handshake + image-capability negotiation) and prompt-block
  construction (`AcpClient` namespace);
* `src/direct_ai.py` — the `ask_ai_async` orchestration entry point and its
  three backends (Claude SSE, OpenAI SSE, ACP subprocess), modelled as
  functions from the environment behaviour (parsed wire input, cancellation
  flag readings) to the sequence of caller-visible callback invocations
  (`DirectAi` namespace).

Python values flowing through the client are modelled by the inductive
`Anki.Json` (with `Json.null` standing for Python `None`), and Python
truthiness by `Json.truthy`.  Attribute errors that Python raises when
`.get` is called on a non-dict are modelled by `Option`-valued accessors:
a `none` result of such an accessor means the corresponding Python code
raises.  External effects (the subprocess replies, the SQLite index, SSE
lines, `json.loads`) are oracles passed as explicit arguments; everything
the repository's own code does with them is translated line by line.
-/

namespace Anki

/-- Model of a decoded JSON / Python value.  `null` doubles as Python
`None`; numbers are restricted to the integers actually used by the
protocol (request ids, slide ids). -/
inductive Json where
  | null : Json
  | bool (b : Bool) : Json
  | num (n : Int) : Json
  | str (s : String) : Json
  | arr (xs : List Json) : Json
  | obj (fields : List (String × Json)) : Json

namespace Json

/-- Python truthiness of a decoded JSON value. -/
def truthy : Json → Bool
  | .null => false
  | .bool b => b
  | .num n => n != 0
  | .str s => s ≠ ""
  | .arr xs => !xs.isEmpty
  | .obj fs => !fs.isEmpty

/-- First binding of `k` in an association list (Python dicts produced by
`json.loads` have unique keys, and `dict` lookup returns that binding). -/
def lookupField : List (String × Json) → String → Option Json
  | [], _ => none
  | (k2, v) :: rest, k => if k2 = k then some v else lookupField rest k

/-- `d.get(k, default)` for a receiver that is known to be a dict. -/
def objGetD (fields : List (String × Json)) (k : String) (d : Json) : Json :=
  match lookupField fields k with
  | some v => v
  | none => d

/-- `j.get(k)` in Python: returns the binding (or `None`) when `j` is a
dict, and raises `AttributeError` otherwise — the raise is modelled by
`none`. -/
def pyGet : Json → String → Option Json
  | .obj fs, k => some (objGetD fs k .null)
  | _, _ => none

/-- `j.get(k, d)` in Python: `none` models the `AttributeError` raised
when `j` is not a dict. -/
def pyGetD : Json → String → Json → Option Json
  | .obj fs, k, d => some (objGetD fs k d)
  | _, _, _ => none

/-- Whether `k` is a key of the object fields (`"k" in msg`). -/
def hasField (fields : List (String × Json)) (k : String) : Bool :=
  (lookupField fields k).isSome

/-- Python `repr` of a decoded JSON value (used by `str(...)` on
containers when the client stringifies an error payload). -/
def pyRepr : Json → String
  | .null => "None"
  | .bool true => "True"
  | .bool false => "False"
  | .num n => toString n
  | .str s => "\x27" ++ s ++ "\x27"
  | .arr xs => "[" ++ String.intercalate ", " (reprList xs) ++ "]"
  | .obj fs => "\x7b" ++ String.intercalate ", " (reprFields fs) ++ "\x7d"
where
  reprList : List Json → List String
    | [] => []
    | x :: xs => pyRepr x :: reprList xs
  reprFields : List (String × Json) → List String
    | [] => []
    | (k, v) :: xs => ("\x27" ++ k ++ "\x27: " ++ pyRepr v) :: reprFields xs

/-- Python `str` of a decoded JSON value. -/
def pyStr : Json → String
  | .str s => s
  | j => pyRepr j

/-- Whether the value is exactly the string `s` (Python `== "s"`). -/
def isStr : Json → String → Bool
  | .str t, s => t = s
  | _, _ => false

end Json

/-!
`src/lecture_search.py` — sanitization, reciprocal rank fusion, MCQ search.
The SQLite FTS index is external: it enters as an oracle
`db : String → Nat → List Row` mapping a sanitized query and a row limit to
the rows the `SELECT` returns (an `sqlite3.OperationalError` is the oracle
returning `[]`, exactly what `_run_query` turns it into).  The modelled
character domain is ASCII plus the Swedish vowels å ä ö Å Ä Ö that the
source handles explicitly.
-/
namespace LectureSearch

open Anki

/-- The Swedish letters the source's regex keeps alongside `\w` and `\s`. -/
def swedishLower : List Char := ['å', 'ä', 'ö']

/-- Uppercase Swedish letters kept by the regex. -/
def swedishUpper : List Char := ['Å', 'Ä', 'Ö']

/-- Characters that `re.sub(r'[^\w\såäöÅÄÖ]', ' ', text)` leaves in place
(on the modelled ASCII-plus-Swedish domain): word characters, whitespace
and the six Swedish vowels. -/
def keptChar (c : Char) : Bool :=
  c.isAlphanum || c = '_' || c.isWhitespace ||
    swedishLower.contains c || swedishUpper.contains c

/-- The regex substitution: every non-kept character becomes a space. -/
def scrub (text : String) : String :=
  String.mk (text.data.map (fun c => if keptChar c then c else ' '))

/-- Accumulating splitter behind `pySplit`. -/
def wsSplitAux (acc : List Char) : List Char → List (List Char)
  | [] => if acc.isEmpty then [] else [acc.reverse]
  | c :: rest =>
    if c.isWhitespace then
      if acc.isEmpty then wsSplitAux [] rest
      else acc.reverse :: wsSplitAux [] rest
    else wsSplitAux (c :: acc) rest

/-- Python `str.split()` — split on whitespace runs, no empty pieces. -/
def pySplit (s : String) : List String :=
  (wsSplitAux [] s.data).map String.mk

/-- `str.lower()` on the modelled domain. -/
def pyLowerChar (c : Char) : Char :=
  if c = 'Å' then 'å' else if c = 'Ä' then 'ä' else if c = 'Ö' then 'ö'
  else c.toLower

/-- Lowercasing of a whole string (`str.lower()`). -/
def pyLower (s : String) : String := String.mk (s.data.map pyLowerChar)

/-- Characters that carry case on the modelled domain. -/
def casedChar (c : Char) : Bool :=
  c.isAlpha || swedishLower.contains c || swedishUpper.contains c

/-- Uppercase cased characters on the modelled domain. -/
def upperChar (c : Char) : Bool := c.isUpper || swedishUpper.contains c

/-- Python `str.isupper()`: at least one cased character and no lowercase
cased character. -/
def pyIsUpper (s : String) : Bool :=
  s.data.any casedChar && s.data.all (fun c => !casedChar c || upperChar c)

/-- The curated stop-word set from `_sanitize` (a Python `set`; only
membership matters). -/
def stops : List String :=
  [ "och", "att", "det", "den", "en", "ett", "är", "av", "om", "för",
    "på", "med", "som", "till", "från", "kan", "de", "i", "vad", "har",
    "var", "sig", "men", "så", "när", "hur", "där", "här", "inte",
    "alla", "also", "bara", "dels", "dock", "även", "samt", "utan",
    "eller", "sedan", "inom", "över", "under", "efter", "igen", "deras",
    "dess", "vid", "mot", "hos", "via", "sina", "sitt", "hela", "just",
    "ofta", "vilken", "vilket", "vilka", "sant", "falskt",
    "gör", "göra", "leder", "sker", "finns", "inga", "olika", "andra",
    "detta", "dessa", "istället", "iväg", "skickas", "stannar",
    "the", "of", "in", "a", "an", "or", "and", "is", "are", "that",
    "this", "with", "from", "which", "what", "when", "where", "how" ]

/-- The token-loop body of `_sanitize`: drop stop words, keep short
all-uppercase abbreviations (length ≥ 2) and tokens longer than 3. -/
def keepToken (t : String) : Bool :=
  if stops.contains (pyLower t) then false
  else if pyIsUpper t && decide (2 ≤ t.length) then true
  else decide (3 < t.length)

/-- Stable insertion (longest first) used to model
`sorted(..., key=lambda t: -len(t))`. -/
def insertByLen (x : String) : List String → List String
  | [] => [x]
  | y :: ys => if y.length ≤ x.length then x :: y :: ys else y :: insertByLen x ys

/-- Stable longest-first sort. -/
def sortByLenDesc (l : List String) : List String := l.foldr insertByLen []

/-- Token list produced by `_sanitize` before joining: scrub, split,
filter, deduplicate (`set(...)` — iteration order of a Python set is
unspecified, we fix the canonical `List.dedup`), sort longest-first, keep
at most `maxTokens`. -/
def sanitizeTokens (text : String) (maxTokens : Nat := 6) : List String :=
  (sortByLenDesc ((pySplit (scrub text)).filter keepToken).dedup).take maxTokens

/-- `_sanitize`: the sanitized query string, tokens joined with `" OR "`. -/
def sanitize (text : String) (maxTokens : Nat := 6) : String :=
  String.intercalate " OR " (sanitizeTokens text maxTokens)

/-- One row of the `slides_fts` join, in `SELECT` column order
(`s.id, s.del, s.block, s.lecture, s.slide_num, s.slide_txt, s.ai_txt,
s.key_terms, s.png_path, bm25(...) AS score`). -/
structure Row where
  id : Int
  del_ : String
  block : String
  lecture : String
  slide_num : Int
  slide_txt : String
  ai_txt : String
  key_terms : String
  png_path : String
  score : ℚ
deriving DecidableEq

/-- The per-slide payload `_rrf_merge` caches in `data[sid]`
(`dict(id=row[0], ..., png_path=row[8])`). -/
structure SlideData where
  id : Int
  del_ : String
  block : String
  lecture : String
  slide_num : Int
  slide_txt : String
  ai_txt : String
  key_terms : String
  png_path : String
deriving DecidableEq

/-- Projection of a fetched row to the cached slide payload. -/
def Row.toData (r : Row) : SlideData :=
  { id := r.id, del_ := r.del_, block := r.block, lecture := r.lecture,
    slide_num := r.slide_num, slide_txt := r.slide_txt, ai_txt := r.ai_txt,
    key_terms := r.key_terms, png_path := r.png_path }

/-- A merged result dict: slide payload plus `rrf_score` and `matched_by`. -/
structure SlideDict where
  id : Int
  del_ : String
  block : String
  lecture : String
  slide_num : Int
  slide_txt : String
  ai_txt : String
  key_terms : String
  png_path : String
  rrf_score : ℚ
  matched_by : List String
deriving DecidableEq

/-- Whether `pat` occurs at the head of `l`. -/
def startsHere : List Char → List Char → Bool
  | [], _ => true
  | _ :: _, [] => false
  | p :: ps, c :: cs => p = c && startsHere ps cs

/-- Python substring test `pat in hay` on character lists. -/
def subOccurs (pat : List Char) : List Char → Bool
  | [] => pat.isEmpty
  | c :: rest => startsHere pat (c :: rest) || subOccurs pat rest

/-- Python `pat in hay` for strings. -/
def strHasSub (hay pat : String) : Bool := subOccurs pat.data hay.data

/-- The lecture-name substrings that are never useful search results. -/
def EXCLUDE : List String :=
  ["instudering", "seminarieuppgift", "seminareuppgift", "seminaruppgift"]

/-- `_excluded`: lowercased lecture name contains an excluded substring. -/
def excluded (s : SlideDict) : Bool :=
  EXCLUDE.any (fun x => strHasSub (pyLower s.lecture) x)

/-- Lookup in an integer-keyed association list (insertion-ordered model
of a Python dict). -/
def alGet {α : Type} : List (Int × α) → Int → Option α
  | [], _ => none
  | (k2, v) :: rest, k => if k2 = k then some v else alGet rest k

/-- Lookup with default. -/
def alGetD {α : Type} (l : List (Int × α)) (k : Int) (d : α) : α :=
  (alGet l k).getD d

/-- `scores[sid] = scores.get(sid, 0.0) + v`: add to the binding in place,
or append a fresh binding (dict insertion order). -/
def addScore : List (Int × ℚ) → Int → ℚ → List (Int × ℚ)
  | [], sid, v => [(sid, v)]
  | (k, x) :: rest, sid, v =>
      if k = sid then (k, x + v) :: rest else (k, x) :: addScore rest sid v

/-- `matched.setdefault(sid, []).append(label)`. -/
def addLabel : List (Int × List String) → Int → String → List (Int × List String)
  | [], sid, label => [(sid, [label])]
  | (k, ls) :: rest, sid, label =>
      if k = sid then (k, ls ++ [label]) :: rest else (k, ls) :: addLabel rest sid label

/-- `if sid not in data: data[sid] = dict(...)`. -/
def addData : List (Int × SlideData) → Int → Row → List (Int × SlideData)
  | [], sid, row => [(sid, row.toData)]
  | (k, d) :: rest, sid, row =>
      if k = sid then (k, d) :: rest else (k, d) :: addData rest sid row

/-- The RRF smoothing constant `_RRF_K`. -/
def rrfK : ℚ := 60

/-- The three accumulator dicts of `_rrf_merge`. -/
structure Tables where
  scores : List (Int × ℚ)
  data : List (Int × SlideData)
  matched : List (Int × List String)

/-- Inner loop of `_rrf_merge` over `enumerate(rows)` for one sub-query. -/
def procRows (label : String) : Nat → List Row → Tables → Tables
  | _, [], t => t
  | rank, row :: rest, t =>
      procRows label (rank + 1) rest
        { scores := addScore t.scores row.id (1 / (rrfK + (rank : ℚ) + 1)),
          data := addData t.data row.id row,
          matched := addLabel t.matched row.id label }

/-- Outer loop of `_rrf_merge` over the labelled sub-query result lists. -/
def rrfTables (qrs : List (String × List Row)) : Tables :=
  qrs.foldl (fun t p => procRows p.1 0 p.2 t) ⟨[], [], []⟩

/-- Stable descending insertion used to model
`sorted(scores.items(), key=lambda x: -x[1])`. -/
def insertScoreDesc (x : Int × ℚ) : List (Int × ℚ) → List (Int × ℚ)
  | [] => [x]
  | y :: ys => if y.2 ≤ x.2 then x :: y :: ys else y :: insertScoreDesc x ys

/-- Stable sort of the score dict items, descending fused score. -/
def sortScoresDesc (l : List (Int × ℚ)) : List (Int × ℚ) :=
  l.foldr insertScoreDesc []

/-- Result-dict assembly of `_rrf_merge`: `d = dict(data[sid])` with
`rrf_score` and `matched_by` added (`data[sid]` provably exists for every
scored `sid`; the impossible miss is skipped). -/
def mkSlide (d : SlideData) (score : ℚ) (labels : List String) : SlideDict :=
  { id := d.id, del_ := d.del_, block := d.block, lecture := d.lecture,
    slide_num := d.slide_num, slide_txt := d.slide_txt, ai_txt := d.ai_txt,
    key_terms := d.key_terms, png_path := d.png_path,
    rrf_score := score, matched_by := labels }

/-- `_rrf_merge`. -/
def rrf_merge (qrs : List (String × List Row)) : List SlideDict :=
  let t := rrfTables qrs
  (sortScoresDesc t.scores).filterMap fun p =>
    (alGet t.data p.1).map fun d => mkSlide d p.2 (alGetD t.matched p.1 [])

/-- `_run_query`: sanitize, return `[]` on an empty sanitized query,
otherwise consult the index oracle (which yields `[]` on an
`sqlite3.OperationalError`). -/
def run_query (db : String → Nat → List Row) (query : String) (limit : Nat) :
    List Row :=
  let clean := sanitize query
  if clean = "" then [] else db clean limit

/-- The labelled query list of `search_mcq`:
`[("question", question)] + [("answer_i+1", a) for i, a in enumerate(answers)]`. -/
def labeledQueries (question : String) (answers : List String) :
    List (String × String) :=
  ("question", question) :: go 0 answers
where
  go : Nat → List String → List (String × String)
    | _, [] => []
    | i, a :: rest => ("answer_" ++ toString (i + 1), a) :: go (i + 1) rest

/-- The non-empty labelled sub-query result lists of `search_mcq`. -/
def mcqQueryResults (db : String → Nat → List Row) (question : String)
    (answers : List String) (limit : Nat) : List (String × List Row) :=
  let perQuery := max limit 20
  (labeledQueries question answers).filterMap fun p =>
    let rows := run_query db p.2 perQuery
    if rows.isEmpty then none else some (p.1, rows)

/-- `search_mcq` (the `DB_PATH.exists()` probe is the `dbExists` oracle). -/
def search_mcq (db : String → Nat → List Row) (dbExists : Bool)
    (question : String) (answers : List String) (limit : Nat := 8) :
    List SlideDict :=
  if !dbExists then []
  else
    ((rrf_merge (mcqQueryResults db question answers limit)).filter
      (fun s => !excluded s)).take limit

/-- The spec-side reciprocal-rank-fusion contribution of one result list:
`1/(K + rank + 1)` summed over the positions where `sid` appears. -/
def rrfContrib (sid : Int) : Nat → List Row → ℚ
  | _, [] => 0
  | rank, row :: rest =>
      (if row.id = sid then 1 / (rrfK + (rank : ℚ) + 1) else 0) +
        rrfContrib sid (rank + 1) rest

/-- The spec-side fused score: the sum over every sub-query result list of
the reciprocal-rank contributions of `sid`. -/
def rrfSpecScore (sid : Int) (qrs : List (String × List Row)) : ℚ :=
  (qrs.map fun p => rrfContrib sid 0 p.2).sum

/-- A concrete indexed slide row used to exercise `search_mcq`. -/
def c8row : Row :=
  { id := 1, del_ := "DFM1", block := "B2", lecture := "Cellbiologi 1",
    slide_num := 4, slide_txt := "mitokondriens funktion", ai_txt := "",
    key_terms := "mitokondrie", png_path := "slides/4.png", score := 0 }

/-- A concrete index oracle returning the same single row for every
sub-query. -/
def c8db : String → Nat → List Row := fun _ _ => [c8row]

/-- The fused score of `c8row`: one rank-0 hit from the question query and
one rank-0 hit from the answer query (`1/61 + 1/61 = 2/61`). -/
def c8score : ℚ :=
  1 / (rrfK + ((0 : Nat) : ℚ) + 1) + 1 / (rrfK + ((0 : Nat) : ℚ) + 1)

/-- The merged dict `search_mcq` produces for `c8row` found by both the
question and the answer sub-query. -/
def c8slide : SlideDict := mkSlide c8row.toData c8score ["question", "answer_1"]

end LectureSearch

/-!
`src/acp_client.py` — the JSON-RPC correlation layer.  The subprocess is
external: its stdout is an oracle stream of lines (`ReadLine`), and the
reply correlated to one synchronous call is an oracle
`Option (List (String × Json))` — `none` when nothing matching arrived
within the timeout ceiling, `some fields` when the decoded response
message arrived in time.  Sequential semantics: chunks delivered while a
worker waits are inputs; the in-thread control flow is translated line by
line.
-/
namespace AcpClient

open Anki

/-- One `PendingRequest` entry: `{"event": event, "result": None,
"error": None}` — `eventSet` is whether `event.set()` has run. -/
structure Entry where
  result : Json := .null
  error : Json := .null
  eventSet : Bool := false

/-- The pending-request table `self._pending` (a dict keyed by request
id). -/
def Pending : Type := Int → Option Entry

/-- The table with no outstanding requests. -/
def emptyPending : Pending := fun _ => none

/-- The response branch of `_dispatch` applied to one entry:
attach the error message (`msg["error"].get("message", str(msg["error"]))`,
which raises — `none` — when the error payload is not a dict) or the
result (`msg.get("result")`), and set the completion event. -/
def applyResponse (e : Entry) (fields : List (String × Json)) : Option Entry :=
  if Json.hasField fields "error" then
    let errVal := Json.objGetD fields "error" .null
    (errVal.pyGetD "message" (.str errVal.pyStr)).map fun m =>
      { e with error := m, eventSet := true }
  else
    some { e with result := Json.objGetD fields "result" .null, eventSet := true }

/-- The entry a waiting caller pops after its wait: the fresh entry it
registered, mutated by the correlated response if one arrived and was
dispatched without raising.  (A dispatch raise kills the read loop before
any mutation, so the caller then observes the untouched fresh entry,
exactly like a timeout.) -/
def processArrival (arrival : Option (List (String × Json))) : Option Entry :=
  arrival.bind (applyResponse {})

/-- `_call`: register a fresh `PendingRequest` under `reqId`, send, wait
(the boolean result of `event.wait(timeout=30)` is discarded by the
source), pop the entry and return `(entry.get("result"),
entry.get("error"))` — `Json.null` is Python `None`. -/
def callPending (p : Pending) (reqId : Int)
    (arrival : Option (List (String × Json))) : Pending × (Json × Json) :=
  let p1 : Pending := fun k => if k = reqId then some {} else p k
  let entry : Entry := (processArrival arrival).getD {}
  let p2 : Pending := fun k => if k = reqId then none else p1 k
  (p2, (entry.result, entry.error))

/-- Caller-visible callback invocations of one prompt call. -/
inductive AiEvent where
  | chunk (payload : Json) : AiEvent
  | toolUse (name : Json) (input : Json) : AiEvent
  | done : AiEvent
  | error (msg : String) : AiEvent

/-- Whether the event is a terminal callback (`on_done` or `on_error`). -/
def AiEvent.isTerminal : AiEvent → Bool
  | .done => true
  | .error _ => true
  | _ => false

/-- The terminal callback of `send_prompt._worker`: `event.wait(180)`
timing out yields `on_error("Timeout waiting for response")`; a truthy
`entry.get("error")` yields `on_error(str(...))`; otherwise `on_done()`. -/
def promptTerminal (arrival : Option (List (String × Json))) : AiEvent :=
  match processArrival arrival with
  | none => .error "Timeout waiting for response"
  | some e => if e.error.truthy then .error e.error.pyStr else .done

/-- The pending table and terminal callback after `send_prompt._worker`
runs to completion: the fresh entry is registered and then popped whether
or not a response arrived. -/
def sendPromptPending (p : Pending) (reqId : Int)
    (arrival : Option (List (String × Json))) : Pending × AiEvent :=
  let p1 : Pending := fun k => if k = reqId then some {} else p k
  let p2 : Pending := fun k => if k = reqId then none else p1 k
  (p2, promptTerminal arrival)

/-- Chunk deliveries to a guarded `on_chunk`: the `i`-th inbound chunk is
forwarded iff `deliver i` (the guard reads the cancel token at each
invocation). -/
def deliverChunks (deliver : Nat → Bool) : Nat → List Json → List AiEvent
  | _, [] => []
  | i, c :: cs =>
      (if deliver i then [AiEvent.chunk c] else []) ++ deliverChunks deliver (i + 1) cs

/-- The full callback trace of one `send_prompt` call: the guarded chunk
deliveries (the session callback is popped before the terminal fires, so
they all precede it), then exactly one terminal callback. -/
def sendPromptTrace (deliver : Nat → Bool) (chunks : List Json)
    (arrival : Option (List (String × Json))) : List AiEvent :=
  deliverChunks deliver 0 chunks ++ [promptTerminal arrival]

/-- An image attachment as supplied by the caller
(`{"media_type": ..., "data": ...}`). -/
structure ImageSpec where
  media_type : String
  data : String
deriving DecidableEq

/-- An outbound prompt content block. -/
inductive PromptBlock where
  | image (mimeType : String) (data : String) : PromptBlock
  | text (t : String) : PromptBlock
deriving DecidableEq

/-- Whether a block is an image block. -/
def PromptBlock.isImage : PromptBlock → Bool
  | .image _ _ => true
  | .text _ => false

/-- Prompt-block construction in `send_prompt._worker`: image blocks are
appended only when `self._supports_images` is set, then the text block. -/
def promptBlocksFor (supportsImages : Bool) (images : List ImageSpec)
    (text : String) : List PromptBlock :=
  (if supportsImages then
      images.map (fun img => PromptBlock.image img.media_type img.data)
    else []) ++ [PromptBlock.text text]

/-- Capability extraction in `start`:
`bool((result or {}).get("agentCapabilities", {}).get("promptCapabilities", {}).get("image", False))`
— `none` models the `AttributeError` Python raises when a truthy non-dict
appears anywhere along the chain. -/
def supportsImagesFrom (result : Json) : Option Bool :=
  let base := if result.truthy then result else Json.obj []
  (base.pyGetD "agentCapabilities" (.obj [])).bind fun caps =>
    (caps.pyGetD "promptCapabilities" (.obj [])).bind fun pc =>
      (pc.pyGetD "image" (.bool false)).map Json.truthy

/-- How spawning the subprocess went. -/
inductive SpawnOutcome where
  | fileNotFound : SpawnOutcome
  | raised (msg : String) : SpawnOutcome
  | ok : SpawnOutcome

/-- `ACPClient.start`: spawn failures return error strings; then the
synchronous `initialize` call is made and a truthy error reply aborts with
`"initialize failed: ..."`; otherwise the image capability is negotiated
from the result.  The outer `Option` is `none` when capability extraction
raises (non-dict truthy payloads); the returned pair is
(error string or `none`, negotiated `_supports_images`). -/
def startAcp (binary : String) (spawn : SpawnOutcome)
    (arrival : Option (List (String × Json))) : Option (Option String × Bool) :=
  match spawn with
  | .fileNotFound => some (some ("ACP binary not found: " ++ binary), false)
  | .raised m => some (some m, false)
  | .ok =>
    let r := (callPending emptyPending 1 arrival).2
    if r.2.truthy then some (some ("initialize failed: " ++ r.2.pyStr), false)
    else (supportsImagesFrom r.1).map fun b => (none, b)

/-- First binding of a string key (the `self._sessions` dict). -/
def lookupStr : List (String × Json) → String → Option Json
  | [], _ => none
  | (k2, v) :: rest, k => if k2 = k then some v else lookupStr rest k

/-- Truthiness of the caller-supplied session key (`if session_key:`). -/
def keyTruthy : Option String → Bool
  | none => false
  | some k => k ≠ ""

/-- The `session/new` path of `get_or_create_session`: a truthy error
reply surfaces `"session/new failed: ..."`; a falsy `sessionId`
(`if not session_id:`) surfaces `"No sessionId in session/new response"`;
otherwise the id is cached under a truthy key.  `none` models the raise
on a truthy non-dict result (`result.get("sessionId")`). -/
def createSession (sessions : List (String × Json)) (key : Option String)
    (arrival : Option (List (String × Json))) :
    Option (List (String × Json) × Except String Json) :=
  let r := (callPending emptyPending 2 arrival).2
  if r.2.truthy then some (sessions, .error ("session/new failed: " ++ r.2.pyStr))
  else
    match (if r.1.truthy then r.1.pyGet "sessionId" else some Json.null) with
    | none => none
    | some sessionId =>
      if !sessionId.truthy then
        some (sessions, .error "No sessionId in session/new response")
      else
        let sessions2 :=
          match key with
          | some k => if k ≠ "" then sessions ++ [(k, sessionId)] else sessions
          | none => sessions
        some (sessions2, .ok sessionId)

/-- `get_or_create_session`: a truthy cached key is returned without any
call, otherwise a new session is created. -/
def get_or_create_session (sessions : List (String × Json)) (key : Option String)
    (arrival : Option (List (String × Json))) :
    Option (List (String × Json) × Except String Json) :=
  match key with
  | some k =>
    if k ≠ "" then
      match lookupStr sessions k with
      | some sid => some (sessions, .ok sid)
      | none => createSession sessions key arrival
    else createSession sessions key arrival
  | none => createSession sessions key arrival

/-- The observable state of the correlation layer: the pending table, the
set of session ids with a registered chunk callback
(`self._callbacks`), and the record of chunk-callback invocations
`cb(text)` made so far (session id, payload). -/
structure ClientState where
  pending : Pending
  callbacks : List String
  chunkCalls : List (String × Json)

/-- The text payload `_dispatch` extracts from a chunk notification's
content (`content.get("text", "") if isinstance(content, dict) else ""`). -/
def chunkText : Json → Json
  | .obj cf => Json.objGetD cf "text" (.str "")
  | _ => .str ""

/-- `_dispatch`.  `none` models an exception escaping `_dispatch` (which
the read loop's `except` catches, ending the loop): `.get` on a non-dict
`params`/`update`/`error` payload, or a non-object top-level message.
Messages matching neither the notification nor the response pattern are
ignored.  (Callback lookup with an unhashable session id is abstracted to
a miss.) -/
def dispatch (st : ClientState) : Json → Option ClientState
  | .obj fields =>
    let msgId := Json.objGetD fields "id" .null
    let method := Json.objGetD fields "method" .null
    if method.isStr "session/update" then
      let params := Json.objGetD fields "params" (.obj [])
      match params.pyGet "sessionId" with
      | none => none
      | some sessionId =>
        match params.pyGetD "update" (.obj []) with
        | none => none
        | some update =>
          match update.pyGet "sessionUpdate" with
          | none => none
          | some updType =>
            if updType.isStr "agent_message_chunk" then
              match update.pyGetD "content" (.obj []) with
              | none => none
              | some content =>
                let text : Json := chunkText content
                if text.truthy then
                  match sessionId with
                  | .str sid =>
                    if st.callbacks.contains sid then
                      some { st with chunkCalls := st.chunkCalls ++ [(sid, text)] }
                    else some st
                  | _ => some st
                else some st
            else some st
    else
      match msgId with
      | .num n =>
        match st.pending n with
        | some entry =>
          match applyResponse entry fields with
          | some e2 =>
            some { st with pending := fun k => if k = n then some e2 else st.pending k }
          | none => none
        | none => some st
      | _ => some st
  | _ => none

/-- One line read from the subprocess's stdout: blank after stripping,
undecodable as JSON, or a decoded message. -/
inductive ReadLine where
  | blank : ReadLine
  | malformed : ReadLine
  | msg (j : Json) : ReadLine

/-- `_read_loop`: blank lines and JSON-decode failures are skipped and the
loop continues; a dispatch exception is caught by the loop's `except` and
ends it (remaining lines are dropped). -/
def readLoop (st : ClientState) : List ReadLine → ClientState
  | [] => st
  | .blank :: rest => readLoop st rest
  | .malformed :: rest => readLoop st rest
  | .msg j :: rest =>
    match dispatch st j with
    | some st2 => readLoop st2 rest
    | none => st

/-- The decoded fields of a well-formed JSON-RPC result response for
request `n`. -/
def mkResultFields (n : Int) (r : Json) : List (String × Json) :=
  [("jsonrpc", .str "2.0"), ("id", .num n), ("result", r)]

/-- The decoded fields of a well-formed JSON-RPC error response for
request `n`, with an object error payload. -/
def mkErrorFields (n : Int) (errFields : List (String × Json)) :
    List (String × Json) :=
  [("jsonrpc", .str "2.0"), ("id", .num n), ("error", .obj errFields)]

/-- A well-formed JSON-RPC result response for request `n`. -/
def mkResultMsg (n : Int) (r : Json) : Json := .obj (mkResultFields n r)

/-- A well-formed JSON-RPC error response for request `n` with an object
error payload. -/
def mkErrorMsg (n : Int) (errFields : List (String × Json)) : Json :=
  .obj (mkErrorFields n errFields)

/-- A well-formed `session/update` / `agent_message_chunk` notification
with the given content payload. -/
def chunkNotif (sid : String) (content : Json) : Json :=
  .obj [("jsonrpc", .str "2.0"), ("method", .str "session/update"),
        ("params", .obj
          [("sessionId", .str sid),
           ("update", .obj
             [("sessionUpdate", .str "agent_message_chunk"),
              ("content", content)])])]

/-- Whether a payload is a non-empty string. -/
def isNonEmptyStr : Json → Bool
  | .str s => s ≠ ""
  | _ => false

/-- The callback trace ends in exactly one terminal callback: every event
before the last is a non-terminal chunk or tool-use delivery, and the last
is `done` or `error`. -/
def oneTerminalLast (tr : List AiEvent) : Prop :=
  ∃ pre t, tr = pre ++ [t] ∧ AiEvent.isTerminal t = true ∧
    ∀ e ∈ pre, AiEvent.isTerminal e = false

/-- A pending table holding exactly one fresh entry, under request id 7. -/
def c7pend : Pending := fun k => if k = 7 then some {} else none

/-- Client state used to exercise the read loop: request 7 outstanding,
no callbacks. -/
def c7state : ClientState := ⟨c7pend, [], []⟩

/-- Client state with a chunk callback registered for session `"sess"`. -/
def c10state : ClientState := ⟨emptyPending, ["sess"], []⟩

/-- An initialize result advertising no prompt capabilities at all. -/
def c6reply : Json := .obj [("agentCapabilities", .obj [])]


end AcpClient

/-!
`src/direct_ai.py` — the `ask_ai_async` orchestration entry point and the
three backends.  Each backend is a function from oracles describing the
environment (the HTTP outcome and parsed SSE lines, or the subprocess
replies) and the cancel-token readings (`cancel i` is the value
`cancel_event.is_set()` returns at the `i`-th check) to the list of
caller-callback invocations, in order.
-/
namespace DirectAi

open Anki AcpClient

/-- A decoded Claude SSE event, classified exactly as the source's
`if`/`elif` chain does. -/
inductive SseEvent where
  | blockStartTool (name : Json) : SseEvent
  | blockStartOther : SseEvent
  | textDelta (text : Json) : SseEvent
  | inputJsonDelta (fragment : String) : SseEvent
  | blockStop : SseEvent
  | otherEvent : SseEvent

/-- One line of the Claude SSE stream: not a `data:` line (skipped),
the `[DONE]` marker (break), an undecodable payload (skipped), or a
decoded event. -/
inductive SseLine where
  | junk : SseLine
  | doneMarker : SseLine
  | malformed : SseLine
  | event (e : SseEvent) : SseLine

/-- How the streaming HTTP request went: an `HTTPError` from `urlopen`,
another exception from `urlopen`, or a stream of lines followed either by
clean EOF (`failMsg = none`) or by an exception raised while iterating
(`failMsg = some m`, reaching the generic `except`). -/
inductive HttpOutcome (L : Type) where
  | httpError (code : Int) (body : String) : HttpOutcome L
  | raised (msg : String) : HttpOutcome L
  | stream (lines : List L) (failMsg : Option String) : HttpOutcome L

/-- The `for line in resp` loop of `_ask_claude`: per line the cancel
token is checked first (`break`), then the line is classified; text
deltas call `on_chunk`, tool-use blocks accumulate JSON fragments and on
`content_block_stop` fire `on_tool_use` when the name is truthy, parts
are non-empty, the callback exists and the joined fragments decode
(`parseJson` plays `json.loads`).  Returns the emitted events and whether
the loop ended by `break`. -/
def claudeLoop (cancel : Nat → Bool) (hasToolCb : Bool)
    (parseJson : String → Option Json) :
    Nat → Json → List String → List SseLine → (List AiEvent × Bool)
  | _, _, _, [] => ([], false)
  | i, toolName, parts, line :: rest =>
    if cancel i then ([], true)
    else
      match line with
      | .junk => claudeLoop cancel hasToolCb parseJson (i + 1) toolName parts rest
      | .doneMarker => ([], true)
      | .malformed => claudeLoop cancel hasToolCb parseJson (i + 1) toolName parts rest
      | .event (.blockStartTool name) =>
          claudeLoop cancel hasToolCb parseJson (i + 1) name [] rest
      | .event .blockStartOther =>
          claudeLoop cancel hasToolCb parseJson (i + 1) toolName parts rest
      | .event (.textDelta t) =>
          let r := claudeLoop cancel hasToolCb parseJson (i + 1) toolName parts rest
          (AiEvent.chunk t :: r.1, r.2)
      | .event (.inputJsonDelta f) =>
          claudeLoop cancel hasToolCb parseJson (i + 1) toolName (parts ++ [f]) rest
      | .event .blockStop =>
          let fired : List AiEvent :=
            if toolName.truthy && !parts.isEmpty && hasToolCb then
              match parseJson (String.join parts) with
              | some input => [AiEvent.toolUse toolName input]
              | none => []
            else []
          let r := claudeLoop cancel hasToolCb parseJson (i + 1) .null [] rest
          (fired ++ r.1, r.2)
      | .event .otherEvent =>
          claudeLoop cancel hasToolCb parseJson (i + 1) toolName parts rest

/-- `_ask_claude`: missing API key errors out synchronously; an
`HTTPError` yields `"Claude HTTP {code}: {body[:200]}"`; another `urlopen`
exception yields `str(e)`; otherwise the SSE loop runs and `on_done` fires
after it (also when it broke early), unless iteration itself raised, in
which case `on_error(str(e))` fires. -/
def askClaude (apiKey : String) (http : HttpOutcome SseLine) (hasToolCb : Bool)
    (parseJson : String → Option Json) (cancel : Nat → Bool) : List AiEvent :=
  if apiKey = "" then
    [.error "Claude API-nyckel saknas. Öppna Verktyg > Tillägg > Config."]
  else
    match http with
    | .httpError code body =>
        [.error ("Claude HTTP " ++ toString code ++ ": " ++ body.take 200)]
    | .raised m => [.error m]
    | .stream lines failMsg =>
        let r := claudeLoop cancel hasToolCb parseJson 0 .null [] lines
        if r.2 then r.1 ++ [.done]
        else
          match failMsg with
          | none => r.1 ++ [.done]
          | some m => r.1 ++ [.error m]

/-- One line of the OpenAI SSE stream: not a `data:` line, the `[DONE]`
marker, an undecodable payload, a decoded event with empty `choices`, or
a decoded event carrying `choices[0].delta.get("content", "")`. -/
inductive OaiLine where
  | junk : OaiLine
  | doneMarker : OaiLine
  | malformed : OaiLine
  | noChoices : OaiLine
  | choice (content : Json) : OaiLine

/-- The `for line in resp` loop of `_ask_openai`. -/
def oaiLoop (cancel : Nat → Bool) : Nat → List OaiLine → (List AiEvent × Bool)
  | _, [] => ([], false)
  | i, line :: rest =>
    if cancel i then ([], true)
    else
      match line with
      | .junk => oaiLoop cancel (i + 1) rest
      | .doneMarker => ([], true)
      | .malformed => oaiLoop cancel (i + 1) rest
      | .noChoices => oaiLoop cancel (i + 1) rest
      | .choice content =>
          let r := oaiLoop cancel (i + 1) rest
          (if content.truthy then AiEvent.chunk content :: r.1 else r.1, r.2)

/-- `_ask_openai`. -/
def askOpenai (apiKey : String) (http : HttpOutcome OaiLine)
    (cancel : Nat → Bool) : List AiEvent :=
  if apiKey = "" then
    [.error "OpenAI API-nyckel saknas. Öppna Verktyg > Tillägg > Config."]
  else
    match http with
    | .httpError code body =>
        [.error ("OpenAI HTTP " ++ toString code ++ ": " ++ body.take 200)]
    | .raised m => [.error m]
    | .stream lines failMsg =>
        let r := oaiLoop cancel 0 lines
        if r.2 then r.1 ++ [.done]
        else
          match failMsg with
          | none => r.1 ++ [.done]
          | some m => r.1 ++ [.error m]

/-- The per-binary client cache entry and session registry visible to an
ACP call: whether a started client is cached for the resolved cache key,
its negotiated image capability, and its `_sessions` dict. -/
structure AcpState where
  started : Bool
  supportsImages : Bool
  sessions : List (String × Json)

/-- The oracle for one ACP-path call: how spawning went, the correlated
`initialize` and `session/new` replies (`none` = nothing arrived in
time), the chunk payloads the read loop hands the registered callback
while the prompt is in flight, and the correlated `session/prompt`
reply. -/
structure AcpCallOracle where
  spawn : SpawnOutcome
  initReply : Option (List (String × Json))
  newSessionReply : Option (List (String × Json))
  chunks : List Json
  promptReply : Option (List (String × Json))

/-- First-turn prompt assembly of `_ask_via_acp`: system prompt and card
context are prepended only when the session key is fresh and at least one
of them is truthy; otherwise the bare question. -/
def buildAcpPrompt (existing : Bool) (sys ctx q : String) : String :=
  if !existing && (sys ≠ "" || ctx ≠ "") then
    sys ++ "\n\n" ++ (if ctx ≠ "" then ctx ++ "\n\n" else "") ++ ("Fråga: " ++ q)
  else "Fråga: " ++ q

/-- What one ACP-path call did: the client/session state afterwards, the
outbound prompt text and image list handed to `send_prompt` (when one was
sent), and the caller-callback trace. -/
structure AcpCallResult where
  state : AcpState
  sentPrompt : Option String
  sentImages : Option (List ImageSpec)
  events : List AiEvent

/-- `_ask_via_acp._worker`: resolve (or start) the client, resolve the
session, build the prompt (context only on a fresh session key), attach
images only on the first turn, and send.  The chunk guard
`_on_chunk_guarded` drops a chunk whenever the cancel token is set at
delivery time.  `none` models an exception escaping the worker thread
(`start` or `get_or_create_session` raising on a non-dict reply payload):
no callback at all is invoked. -/
def acpWorker (binary : String) (st : AcpState) (key : Option String)
    (systemPrompt cardContext userQuestion : String) (images : List ImageSpec)
    (o : AcpCallOracle) (cancel : Nat → Bool) : Option AcpCallResult :=
  match (if st.started then some (none, st.supportsImages)
         else startAcp binary o.spawn o.initReply) with
  | none => none
  | some (some err, _) => some ⟨st, none, none, [.error err]⟩
  | some (none, supports) =>
    let st1 : AcpState := ⟨true, supports, st.sessions⟩
    let existing :=
      match key with
      | some k => if k ≠ "" then (lookupStr st.sessions k).isSome else false
      | none => false
    match get_or_create_session st1.sessions key o.newSessionReply with
    | none => none
    | some (sessions2, .error e) =>
        some ⟨{ st1 with sessions := sessions2 }, none, none, [.error e]⟩
    | some (sessions2, .ok _) =>
        let fullPrompt := buildAcpPrompt existing systemPrompt cardContext userQuestion
        let promptImages := if !existing && !images.isEmpty then some images else none
        some ⟨{ st1 with sessions := sessions2 }, some fullPrompt, promptImages,
              sendPromptTrace (fun i => !(cancel i)) o.chunks o.promptReply⟩

/-- The oracles for all three backends of one `ask_ai_async` call. -/
structure AiOracle where
  claudeHttp : HttpOutcome SseLine
  openaiHttp : HttpOutcome OaiLine
  acp : AcpCallOracle

/-- `ask_ai_async`: route on `config.get("harness", "claude-api")` —
the two ACP harnesses go to `_ask_via_acp`, `"openai-api"` to
`_ask_openai`, everything else to `_ask_claude`.  The result is the
caller-callback trace of the background worker, or `none` when the worker
raised. -/
def ask_ai_async (harness : String) (claudeKey openaiKey binary : String)
    (st : AcpState) (sessionKey : Option String)
    (systemPrompt cardContext userQuestion : String) (images : List ImageSpec)
    (hasToolCb : Bool) (parseJson : String → Option Json)
    (o : AiOracle) (cancel : Nat → Bool) : Option (List AiEvent) :=
  if harness = "claude-acp" || harness = "codex-acp" then
    (acpWorker binary st sessionKey systemPrompt cardContext userQuestion images
      o.acp cancel).map AcpCallResult.events
  else if harness = "openai-api" then
    some (askOpenai openaiKey o.openaiHttp cancel)
  else
    some (askClaude claudeKey o.claudeHttp hasToolCb parseJson cancel)

/-- One call of a session-sharing sequence on the ACP path. -/
structure AcpSeqCall where
  systemPrompt : String
  cardContext : String
  userQuestion : String
  images : List ImageSpec
  oracle : AcpCallOracle
  cancel : Nat → Bool

/-- The outbound prompt texts of a sequence of ACP calls sharing one
session key, threading the client cache and session registry (`none` for
a call that errored or raised before sending). -/
def acpSeqPrompts (binary : String) (key : Option String) :
    AcpState → List AcpSeqCall → List (Option String)
  | _, [] => []
  | st, c :: rest =>
    match acpWorker binary st key c.systemPrompt c.cardContext c.userQuestion
        c.images c.oracle c.cancel with
    | none => none :: acpSeqPrompts binary key st rest
    | some r => r.sentPrompt :: acpSeqPrompts binary key r.state rest

/-- An ACP oracle whose initialize reply carries the non-object result
payload `5`. -/
def c1BadAcpOracle : AcpCallOracle :=
  ⟨.ok, some (mkResultFields 1 (.num 5)), none, [], none⟩

/-- Backend oracles for exercising `ask_ai_async` on the bad handshake. -/
def c1Oracle : AiOracle := ⟨.stream [] none, .stream [] none, c1BadAcpOracle⟩

/-- Oracles for a first session-creating call. -/
def c2oracle1 : AcpCallOracle :=
  ⟨.ok, some (mkResultFields 1 (.obj [])),
   some (mkResultFields 2 (.obj [("sessionId", .str "s-1")])), [], none⟩

/-- First call of a concrete session-sharing sequence. -/
def c2call1 : AcpSeqCall := ⟨"SYS", "CTX", "Hur?", [], c2oracle1, fun _ => false⟩

/-- Second call of the concrete sequence (its oracle is never consulted
for the session). -/
def c2call2 : AcpSeqCall :=
  ⟨"S2", "C2", "Q2", [], ⟨.ok, none, none, [], none⟩, fun _ => false⟩

/-- Cancel-token readings for the cancellation witness: the token reads
set from the third check on. -/
def c3cancel : Nat → Bool := fun i => decide (1 < i)


end DirectAi

namespace LectureSearch

/-- Inserting keeps the elements (up to permutation). -/
theorem insertByLen_perm (x : String) (l : List String) :
    List.Perm (insertByLen x l) (x :: l) := by
  induction l with
  | nil => simp [insertByLen]
  | cons y ys ih =>
    rw [insertByLen]
    split
    · exact .refl _
    · exact (List.Perm.cons y ih).trans (List.Perm.swap x y ys)

/-- Sorting keeps the elements (up to permutation). -/
theorem sortByLenDesc_perm (l : List String) : List.Perm (sortByLenDesc l) l := by
  induction l with
  | nil => rfl
  | cons a l ih =>
    have : sortByLenDesc (a :: l) = insertByLen a (sortByLenDesc l) := rfl
    rw [this]
    exact (insertByLen_perm a (sortByLenDesc l)).trans (List.Perm.cons a ih)

/-- Insertion preserves the longest-first ordering. -/
theorem insertByLen_pairwise {x : String} {l : List String}
    (h : l.Pairwise (fun a b => b.length ≤ a.length)) :
    (insertByLen x l).Pairwise (fun a b => b.length ≤ a.length) := by
  induction l with
  | nil => simp [insertByLen]
  | cons y ys ih =>
    rw [insertByLen]
    rcases List.pairwise_cons.mp h with ⟨hy, hys⟩
    split
    · rename_i hc
      refine List.pairwise_cons.mpr ⟨?_, h⟩
      intro z hz
      rcases List.mem_cons.mp hz with rfl | hz
      · exact hc
      · exact le_trans (hy z hz) hc
    · rename_i hc
      refine List.pairwise_cons.mpr ⟨?_, ih hys⟩
      intro z hz
      have hz2 : z ∈ x :: ys := (insertByLen_perm x ys).mem_iff.mp hz
      rcases List.mem_cons.mp hz2 with rfl | hz2
      · omega
      · exact hy z hz2

/-- The sort is longest-first sorted. -/
theorem sortByLenDesc_pairwise (l : List String) :
    (sortByLenDesc l).Pairwise (fun a b => b.length ≤ a.length) := by
  induction l with
  | nil => simp [sortByLenDesc]
  | cons a l ih => exact insertByLen_pairwise ih

/-- What survival of the token filter means. -/
theorem keepToken_spec (t : String) (h : keepToken t = true) :
    stops.contains (pyLower t) = false ∧
      ((pyIsUpper t = true ∧ 2 ≤ t.length) ∨ 3 < t.length) := by
  unfold keepToken at h
  split at h
  · exact absurd h (by simp)
  · rename_i hstop
    refine ⟨by simpa using hstop, ?_⟩
    split at h
    · rename_i hup
      exact Or.inl (by simpa using hup)
    · exact Or.inr (by simpa using h)

/-- Every stop word is lowercase already. -/
theorem stops_lower_fixed : ∀ s ∈ stops, pyLower s = s := by decide

/-- Every token of the sanitized query survived the filter loop. -/
theorem sanitizeTokens_keep (text : String) (maxTokens : Nat) :
    ∀ t ∈ sanitizeTokens text maxTokens, keepToken t = true := by
  intro t ht
  have h1 : t ∈ sortByLenDesc ((pySplit (scrub text)).filter keepToken).dedup :=
    (List.take_sublist maxTokens _).subset ht
  have h2 : t ∈ ((pySplit (scrub text)).filter keepToken).dedup :=
    (sortByLenDesc_perm _).mem_iff.mp h1
  exact (List.mem_filter.mp (List.mem_dedup.mp h2)).2

/-- C9: for every input string the sanitized query has at most 6 tokens,
none of them (even after lowercasing) is a stop word, there are no
duplicates, tokens are listed longest-first, every token is either
all-uppercase of length ≥ 2 or longer than 3 characters, and `_sanitize`
joins them with `" OR "`. -/
theorem c9_sanitize_properties (text : String) :
    (sanitizeTokens text).length ≤ 6 ∧
    (∀ t ∈ sanitizeTokens text, t ∉ stops ∧ pyLower t ∉ stops) ∧
    (sanitizeTokens text).Nodup ∧
    (sanitizeTokens text).Pairwise (fun a b => b.length ≤ a.length) ∧
    (∀ t ∈ sanitizeTokens text, (pyIsUpper t = true ∧ 2 ≤ t.length) ∨ 3 < t.length) ∧
    sanitize text = String.intercalate " OR " (sanitizeTokens text) := by
  have hstops : ∀ t ∈ sanitizeTokens text, t ∉ stops ∧ pyLower t ∉ stops := by
    intro t ht
    have hk := keepToken_spec t (sanitizeTokens_keep text 6 t ht)
    have hlow : pyLower t ∉ stops := by
      intro hmem
      have h2 : stops.contains (pyLower t) = true := List.elem_iff.mpr hmem
      rw [hk.1] at h2
      exact Bool.false_ne_true h2
    refine ⟨?_, hlow⟩
    intro hmem
    exact hlow (by rw [stops_lower_fixed t hmem]; exact hmem)
  refine ⟨List.length_take_le 6 _, hstops, ?_, ?_, ?_, rfl⟩
  · exact ((List.nodup_dedup _).perm (sortByLenDesc_perm _).symm).sublist
      (List.take_sublist 6 _)
  · exact (sortByLenDesc_pairwise _).sublist (List.take_sublist 6 _)
  · intro t ht
    exact (keepToken_spec t (sanitizeTokens_keep text 6 t ht)).2

/-- Witness for C9 at the spec's own example query. -/
theorem c9_sanitize_properties_witness :
    "mitokondriens" ∈ sanitizeTokens "Vad är mitokondriens funktion i cellen?" ∧
    "mitokondriens" ∉ stops :=
  ⟨by decide,
   ((c9_sanitize_properties "Vad är mitokondriens funktion i cellen?").2.1
      "mitokondriens" (by decide)).1⟩

/-- Looking up after `addScore` adds exactly the increment to the keyed
binding. -/
theorem alGetD_addScore (t : List (Int × ℚ)) (sid k : Int) (v : ℚ) :
    alGetD (addScore t sid v) k 0 =
      alGetD t k 0 + (if sid = k then v else 0) := by
  induction t with
  | nil =>
    by_cases h : sid = k <;> simp [addScore, alGetD, alGet, h]
  | cons p rest ih =>
    obtain ⟨k2, x⟩ := p
    by_cases h1 : k2 = sid
    · subst h1
      by_cases h2 : k2 = k
      · subst h2
        simp [addScore, alGetD, alGet]
      · simp [addScore, alGetD, alGet, h2]
    · by_cases h2 : k2 = k
      · subst h2
        have h3 : ¬ sid = k2 := fun hh => h1 hh.symm
        simp [addScore, alGetD, alGet, h1, h3]
      · rw [addScore, if_neg h1]
        rw [alGetD, alGet, if_neg h2]
        rw [alGetD, alGet, if_neg h2]
        exact ih

/-- One sub-query's rows contribute `rrfContrib` to the fused score. -/
theorem procRows_scores (label : String) (sid : Int) :
    ∀ (rows : List Row) (rank : Nat) (t : Tables),
      alGetD (procRows label rank rows t).scores sid 0 =
        alGetD t.scores sid 0 + rrfContrib sid rank rows := by
  intro rows
  induction rows with
  | nil => intro rank t; simp [procRows, rrfContrib]
  | cons row rest ih =>
    intro rank t
    rw [procRows, rrfContrib, ih]
    rw [alGetD_addScore]
    by_cases h : row.id = sid <;> (simp [h, eq_comm]; try ring)

/-- The fused score accumulated over all sub-queries is the spec formula. -/
theorem rrfTables_scores_aux (sid : Int) :
    ∀ (qrs : List (String × List Row)) (t : Tables),
      alGetD (qrs.foldl (fun t p => procRows p.1 0 p.2 t) t).scores sid 0 =
        alGetD t.scores sid 0 + rrfSpecScore sid qrs := by
  intro qrs
  induction qrs with
  | nil => intro t; simp [rrfSpecScore]
  | cons q rest ih =>
    intro t
    rw [List.foldl_cons, ih, procRows_scores]
    simp [rrfSpecScore]
    ring

/-- The fused-score table realises the spec formula. -/
theorem rrfTables_scores (sid : Int) (qrs : List (String × List Row)) :
    alGetD (rrfTables qrs).scores sid 0 = rrfSpecScore sid qrs := by
  have := rrfTables_scores_aux sid qrs ⟨[], [], []⟩
  simpa [rrfTables, alGetD, alGet] using this

/-- Keys reachable after `addScore` were present before or are the new key. -/
theorem mem_keys_addScore {t : List (Int × ℚ)} {sid j : Int} {v : ℚ}
    (h : j ∈ (addScore t sid v).map Prod.fst) :
    j ∈ t.map Prod.fst ∨ j = sid := by
  induction t with
  | nil => simpa [addScore] using h
  | cons p rest ih =>
    obtain ⟨k2, x⟩ := p
    by_cases hk : k2 = sid
    · subst hk
      rw [addScore, if_pos rfl] at h
      rw [List.map_cons, List.mem_cons] at h ⊢
      rcases h with h | h
      · exact Or.inl (Or.inl h)
      · exact Or.inl (Or.inr h)
    · rw [addScore, if_neg hk] at h
      rw [List.map_cons, List.mem_cons] at h ⊢
      rcases h with h | h
      · exact Or.inl (Or.inl h)
      · rcases ih h with h2 | h2
        · exact Or.inl (Or.inr h2)
        · exact Or.inr h2

/-- `addScore` keeps the score keys duplicate-free. -/
theorem addScore_keys_nodup {t : List (Int × ℚ)} {sid : Int} {v : ℚ}
    (h : (t.map Prod.fst).Nodup) :
    ((addScore t sid v).map Prod.fst).Nodup := by
  induction t with
  | nil => simp [addScore]
  | cons p rest ih =>
    obtain ⟨k2, x⟩ := p
    rw [List.map_cons, List.nodup_cons] at h
    by_cases hk : k2 = sid
    · subst hk
      rw [addScore, if_pos rfl, List.map_cons, List.nodup_cons]
      exact h
    · rw [addScore, if_neg hk, List.map_cons, List.nodup_cons]
      refine ⟨?_, ih h.2⟩
      intro hmem
      rcases mem_keys_addScore hmem with h2 | h2
      · exact h.1 h2
      · exact hk h2

/-- `procRows` keeps the score keys duplicate-free. -/
theorem procRows_keys_nodup (label : String) :
    ∀ (rows : List Row) (rank : Nat) (t : Tables),
      ((t.scores).map Prod.fst).Nodup →
      (((procRows label rank rows t).scores).map Prod.fst).Nodup := by
  intro rows
  induction rows with
  | nil => intro rank t ht; simpa [procRows] using ht
  | cons row rest ih =>
    intro rank t ht
    rw [procRows]
    exact ih _ _ (addScore_keys_nodup ht)

/-- The score-table keys of the fusion are duplicate-free. -/
theorem rrfTables_keys_nodup (qrs : List (String × List Row)) :
    (((rrfTables qrs).scores).map Prod.fst).Nodup := by
  suffices h : ∀ (qs : List (String × List Row)) (t : Tables),
      ((t.scores).map Prod.fst).Nodup →
      (((qs.foldl (fun t p => procRows p.1 0 p.2 t) t).scores).map Prod.fst).Nodup by
    exact h qrs ⟨[], [], []⟩ (by simp)
  intro qs
  induction qs with
  | nil => intro t ht; simpa using ht
  | cons q rest ih =>
    intro t ht
    rw [List.foldl_cons]
    exact ih _ (procRows_keys_nodup q.1 q.2 0 t ht)

/-- A binding of an association list with duplicate-free keys is found by
lookup. -/
theorem alGet_of_mem {α : Type} {l : List (Int × α)} {k : Int} {v : α}
    (hnd : (l.map Prod.fst).Nodup) (h : (k, v) ∈ l) : alGet l k = some v := by
  induction l with
  | nil => cases h
  | cons p rest ih =>
    obtain ⟨k2, x⟩ := p
    rw [List.map_cons, List.nodup_cons] at hnd
    rcases List.mem_cons.mp h with h1 | h1
    · obtain ⟨h2, h3⟩ := Prod.mk.injEq .. ▸ h1
      cases h1
      simp [alGet]
    · have hk : k2 ≠ k := by
        intro h2
        subst h2
        exact hnd.1 (by simpa using List.mem_map_of_mem Prod.fst h1)
      rw [alGet, if_neg hk]
      exact ih hnd.2 h1

/-- A successful lookup is a binding of the list. -/
theorem mem_of_alGet {α : Type} {l : List (Int × α)} {k : Int} {v : α}
    (h : alGet l k = some v) : (k, v) ∈ l := by
  induction l with
  | nil => simp [alGet] at h
  | cons p rest ih =>
    obtain ⟨k2, x⟩ := p
    rw [alGet] at h
    by_cases hk : k2 = k
    · rw [if_pos hk] at h
      cases h
      exact hk ▸ List.mem_cons_self _ _
    · rw [if_neg hk] at h
      exact List.mem_cons_of_mem _ (ih h)

/-- `addData` preserves the invariant that cached payloads carry their key
as their id, provided the inserted row does. -/
theorem addData_id {d : List (Int × SlideData)} {row : Row}
    (h : ∀ p ∈ d, (Prod.snd p).id = p.1) :
    ∀ p ∈ addData d row.id row, (Prod.snd p).id = p.1 := by
  induction d with
  | nil =>
    intro p hp
    simp only [addData, List.mem_singleton] at hp
    subst hp
    rfl
  | cons q rest ih =>
    obtain ⟨k2, x⟩ := q
    intro p hp
    rw [addData] at hp
    by_cases hk : k2 = row.id
    · rw [if_pos hk] at hp
      exact h p hp
    · rw [if_neg hk] at hp
      rcases List.mem_cons.mp hp with h1 | h1
      · exact h p (h1 ▸ List.mem_cons_self _ _)
      · exact ih (fun q hq => h q (List.mem_cons_of_mem _ hq)) p h1

/-- `procRows` preserves the id-as-key invariant of the data cache. -/
theorem procRows_data_id (label : String) :
    ∀ (rows : List Row) (rank : Nat) (t : Tables),
      (∀ p ∈ t.data, (Prod.snd p).id = p.1) →
      ∀ p ∈ (procRows label rank rows t).data, (Prod.snd p).id = p.1 := by
  intro rows
  induction rows with
  | nil => intro rank t ht; simpa [procRows] using ht
  | cons row rest ih =>
    intro rank t ht
    rw [procRows]
    exact ih _ _ (addData_id ht)

/-- Every cached payload of the fusion carries its key as its id. -/
theorem rrfTables_data_id (qrs : List (String × List Row)) :
    ∀ p ∈ (rrfTables qrs).data, (Prod.snd p).id = p.1 := by
  suffices h : ∀ (qs : List (String × List Row)) (t : Tables),
      (∀ p ∈ t.data, (Prod.snd p).id = p.1) →
      ∀ p ∈ (qs.foldl (fun t p => procRows p.1 0 p.2 t) t).data,
        (Prod.snd p).id = p.1 by
    exact h qrs ⟨[], [], []⟩ (by simp)
  intro qs
  induction qs with
  | nil => intro t ht; simpa using ht
  | cons q rest ih =>
    intro t ht
    rw [List.foldl_cons]
    exact ih _ (procRows_data_id q.1 q.2 0 t ht)

/-- Score-insertion keeps the elements (up to permutation). -/
theorem insertScoreDesc_perm (x : Int × ℚ) (l : List (Int × ℚ)) :
    List.Perm (insertScoreDesc x l) (x :: l) := by
  induction l with
  | nil => simp [insertScoreDesc]
  | cons y ys ih =>
    rw [insertScoreDesc]
    split
    · exact .refl _
    · exact (List.Perm.cons y ih).trans (List.Perm.swap x y ys)

/-- The stable score sort is a permutation of the score items. -/
theorem sortScoresDesc_perm (l : List (Int × ℚ)) :
    List.Perm (sortScoresDesc l) l := by
  induction l with
  | nil => rfl
  | cons a l ih =>
    have h : sortScoresDesc (a :: l) = insertScoreDesc a (sortScoresDesc l) := rfl
    rw [h]
    exact (insertScoreDesc_perm a (sortScoresDesc l)).trans (List.Perm.cons a ih)

/-- Score-insertion preserves the descending order. -/
theorem insertScoreDesc_pairwise {x : Int × ℚ} {l : List (Int × ℚ)}
    (h : l.Pairwise (fun a b => b.2 ≤ a.2)) :
    (insertScoreDesc x l).Pairwise (fun a b => b.2 ≤ a.2) := by
  induction l with
  | nil => simp [insertScoreDesc]
  | cons y ys ih =>
    rw [insertScoreDesc]
    rcases List.pairwise_cons.mp h with ⟨hy, hys⟩
    split
    · rename_i hc
      refine List.pairwise_cons.mpr ⟨?_, h⟩
      intro z hz
      rcases List.mem_cons.mp hz with rfl | hz
      · exact hc
      · exact le_trans (hy z hz) hc
    · rename_i hc
      refine List.pairwise_cons.mpr ⟨?_, ih hys⟩
      intro z hz
      have hz2 : z ∈ x :: ys := (insertScoreDesc_perm x ys).mem_iff.mp hz
      rcases List.mem_cons.mp hz2 with rfl | hz2
      · exact le_of_lt (not_le.mp hc)
      · exact hy z hz2

/-- The sorted score items are in descending order. -/
theorem sortScoresDesc_pairwise (l : List (Int × ℚ)) :
    (sortScoresDesc l).Pairwise (fun a b => b.2 ≤ a.2) := by
  induction l with
  | nil => simp [sortScoresDesc]
  | cons a l ih => exact insertScoreDesc_pairwise ih

/-- `filterMap` transports a pairwise relation along the partial map. -/
theorem pairwise_filterMap {α β : Type} (f : α → Option β) {R : α → α → Prop}
    {S : β → β → Prop}
    (hf : ∀ a b c d, R a b → f a = some c → f b = some d → S c d) :
    ∀ {l : List α}, l.Pairwise R → (l.filterMap f).Pairwise S := by
  intro l
  induction l with
  | nil => intro _; simp
  | cons a l ih =>
    intro h
    rcases List.pairwise_cons.mp h with ⟨ha, hl⟩
    cases hfa : f a with
    | none => rw [List.filterMap_cons_none hfa]; exact ih hl
    | some c =>
      rw [List.filterMap_cons_some hfa]
      refine List.pairwise_cons.mpr ⟨?_, ih hl⟩
      intro d hd
      rcases List.mem_filterMap.mp hd with ⟨b, hb, hfb⟩
      exact hf a b c d (ha b hb) hfa hfb

/-- Every merged dict carries the spec-formula fused score for its own id. -/
theorem rrf_merge_score {qrs : List (String × List Row)} {s : SlideDict}
    (h : s ∈ rrf_merge qrs) : s.rrf_score = rrfSpecScore s.id qrs := by
  rcases List.mem_filterMap.mp h with ⟨p, hp, hps⟩
  rcases Option.map_eq_some'.mp hps with ⟨d, hd, hmk⟩
  subst hmk
  have hid : d.id = p.1 := rrfTables_data_id qrs (p.1, d) (mem_of_alGet hd)
  have hpmem : p ∈ (rrfTables qrs).scores :=
    (sortScoresDesc_perm _).mem_iff.mp hp
  have hget : alGet (rrfTables qrs).scores p.1 = some p.2 :=
    alGet_of_mem (rrfTables_keys_nodup qrs) (by simpa using hpmem)
  have hval : alGetD (rrfTables qrs).scores p.1 0 = p.2 := by
    rw [alGetD, hget]
    rfl
  show p.2 = rrfSpecScore (mkSlide d p.2 _).id qrs
  have hid2 : (mkSlide d p.2 (alGetD (rrfTables qrs).matched p.1 [])).id = p.1 := by
    rw [show (mkSlide d p.2 (alGetD (rrfTables qrs).matched p.1 [])).id = d.id from rfl, hid]
  rw [hid2, ← rrfTables_scores p.1 qrs, hval]

/-- The merged output is sorted by descending fused score. -/
theorem rrf_merge_sorted (qrs : List (String × List Row)) :
    (rrf_merge qrs).Pairwise (fun a b => b.rrf_score ≤ a.rrf_score) := by
  refine pairwise_filterMap _ ?_ (sortScoresDesc_pairwise (rrfTables qrs).scores)
  intro a b c d hab hc hd
  rcases Option.map_eq_some'.mp hc with ⟨da, _, hca⟩
  rcases Option.map_eq_some'.mp hd with ⟨db, _, hdb⟩
  subst hca
  subst hdb
  exact hab

/-- C8: every result of `search_mcq` carries the reciprocal-rank-fusion
score `Σ 1/(60 + rank + 1)` over the sub-queries in which its id appears,
no result has an excluded lecture name, and the output is sorted by
descending fused score. -/
theorem c8_search_mcq_rrf (db : String → Nat → List Row) (dbExists : Bool)
    (question : String) (answers : List String) (limit : Nat) :
    (∀ s ∈ search_mcq db dbExists question answers limit,
        s.rrf_score = rrfSpecScore s.id (mcqQueryResults db question answers limit) ∧
        excluded s = false) ∧
    (search_mcq db dbExists question answers limit).Pairwise
      (fun a b => b.rrf_score ≤ a.rrf_score) := by
  by_cases hdb : dbExists
  · subst hdb
    constructor
    · intro s hs
      rw [search_mcq] at hs
      simp only [Bool.not_true, Bool.false_eq_true, if_false] at hs
      have hs2 := (List.take_sublist _ _).subset hs
      have hs3 := List.mem_filter.mp hs2
      refine ⟨rrf_merge_score hs3.1, by simpa using hs3.2⟩
    · rw [search_mcq]
      simp only [Bool.not_true, Bool.false_eq_true, if_false]
      exact ((rrf_merge_sorted _).filter _).sublist (List.take_sublist _ _)
  · rw [search_mcq, Bool.eq_false_iff.mpr hdb]
    simp

/-- Witness for C8: on a concrete index the single fused result scores
`1/61 + 1/61 = 2/61`, matches the spec formula and is not excluded. -/
theorem c8_search_mcq_rrf_witness :
    c8slide ∈ search_mcq c8db true "mitokondriens funktion" ["cellens energi"] 8 ∧
    c8slide.rrf_score =
      rrfSpecScore c8slide.id
        (mcqQueryResults c8db "mitokondriens funktion" ["cellens energi"] 8) ∧
    c8score = 2 / 61 ∧
    excluded c8slide = false :=
  have hm : c8slide ∈ search_mcq c8db true "mitokondriens funktion" ["cellens energi"] 8 := by
    have h : search_mcq c8db true "mitokondriens funktion" ["cellens energi"] 8 =
        [c8slide] := rfl
    rw [h]
    exact List.mem_singleton.mpr rfl
  have happ :=
    (c8_search_mcq_rrf c8db true "mitokondriens funktion" ["cellens energi"] 8).1
      c8slide hm
  ⟨hm, happ.1, by rw [c8score, rrfK]; norm_num, happ.2⟩

end LectureSearch

namespace AcpClient

/-- Chunk deliveries are never terminal callbacks. -/
theorem deliverChunks_not_terminal (d : Nat → Bool) :
    ∀ (i : Nat) (cs : List Json), ∀ e ∈ deliverChunks d i cs,
      AiEvent.isTerminal e = false := by
  intro i cs
  induction cs generalizing i with
  | nil => intro e he; cases he
  | cons c rest ih =>
    intro e he
    rw [deliverChunks] at he
    rcases List.mem_append.mp he with h | h
    · by_cases hd : d i
      · rw [if_pos hd] at h
        rcases List.mem_singleton.mp h with rfl
        rfl
      · rw [if_neg hd] at h
        cases h
    · exact ih (i + 1) e h

/-- Terminal shape of the worker terminal callback. -/
theorem promptTerminal_isTerminal (arrival : Option (List (String × Json))) :
    (promptTerminal arrival).isTerminal = true := by
  rw [promptTerminal]
  cases processArrival arrival with
  | none => rfl
  | some e =>
    by_cases h : e.error.truthy
    · simp [h, AiEvent.isTerminal]
    · simp [h, AiEvent.isTerminal]

/-- A `send_prompt` trace ends in exactly one terminal callback. -/
theorem sendPromptTrace_oneTerminal (d : Nat → Bool) (cs : List Json)
    (arrival : Option (List (String × Json))) :
    oneTerminalLast (sendPromptTrace d cs arrival) :=
  ⟨deliverChunks d 0 cs, promptTerminal arrival, rfl,
   promptTerminal_isTerminal arrival, deliverChunks_not_terminal d 0 cs⟩

/-- Counterexample to C4: a 30-second control call (`_call`) that times
out returns `(None, None)` — the source discards the boolean result of
`event.wait(timeout=30)` — so the caller does not receive the error text
`"Timeout waiting for response"`; only the 180-second prompt path
synthesizes it. -/
theorem c4_control_timeout_counterexample :
    (callPending emptyPending 1 none).2 = (Json.null, Json.null) ∧
    Json.null ≠ Json.str "Timeout waiting for response" :=
  ⟨rfl, fun h => Json.noConfusion h⟩

/-- C4 (amended): the 180-second prompt worker synthesizes
`on_error("Timeout waiting for response")` on timeout, while a timed-out
30-second control call returns `(None, None)` with no synthesized error
text; in every case the `PendingRequest` entry is removed from the pending
table, whether satisfied by a real response or not. -/
theorem c4_timeout_and_removal (p : Pending) (n : Int)
    (arrival : Option (List (String × Json))) :
    (sendPromptPending p n none).2 = .error "Timeout waiting for response" ∧
    (sendPromptPending p n arrival).1 n = none ∧
    (callPending p n none).2 = (Json.null, Json.null) ∧
    (callPending p n arrival).1 n = none := by
  refine ⟨rfl, ?_, rfl, ?_⟩ <;> simp [sendPromptPending, callPending]

/-- Counterexample to C5: when the `initialize` handshake times out,
`start()` returns `None` — the startup is treated as a success with no
negotiated capabilities — instead of a non-`None` error string. -/
theorem c5_timeout_counterexample :
    startAcp "claude-agent-acp" SpawnOutcome.ok none = some (none, false) ∧
    ¬ ∃ s : String,
        startAcp "claude-agent-acp" SpawnOutcome.ok none = some (some s, false) := by
  refine ⟨rfl, ?_⟩
  rintro ⟨s, h⟩
  have h1 : (some (none, false) : Option (Option String × Bool)) =
      some (some s, false) := h
  have h2 := Option.some.inj h1
  have h3 : (none : Option String) = some s := congrArg Prod.fst h2
  exact Option.noConfusion h3

/-- C5 (amended): `start()` returns a non-`None` error string when the
spawn fails (binary missing or `Popen` raising) and when `initialize`
answers with a truthy error; it returns `None` both on handshake success
(negotiating the image capability from the result) and on handshake
timeout, which the source does not detect; no exception escapes on these
paths (a truthy non-object result payload would raise during capability
extraction, which the outer `Option` records). -/
theorem c5_start_behavior (binary m : String)
    (arr : Option (List (String × Json))) (ef : List (String × Json))
    (r : Json) :
    startAcp binary .fileNotFound arr =
      some (some ("ACP binary not found: " ++ binary), false) ∧
    startAcp binary (.raised m) arr = some (some m, false) ∧
    startAcp binary .ok none = some (none, false) ∧
    ((Json.objGetD ef "message" (.str (Json.pyStr (.obj ef)))).truthy = true →
      startAcp binary .ok (some (mkErrorFields 1 ef)) =
        some (some ("initialize failed: " ++
          (Json.objGetD ef "message" (.str (Json.pyStr (.obj ef)))).pyStr), false)) ∧
    startAcp binary .ok (some (mkResultFields 1 r)) =
      (supportsImagesFrom r).map (fun b => ((none : Option String), b)) := by
  refine ⟨rfl, rfl, rfl, ?_, ?_⟩
  · intro h
    rw [Json.objGetD] at h
    simp [startAcp, callPending, processArrival, applyResponse, mkErrorFields,
      Json.hasField, Json.lookupField, Json.objGetD, Json.pyGetD, h]
  · simp [startAcp, callPending, processArrival, applyResponse, mkResultFields,
      Json.hasField, Json.lookupField, Json.objGetD, Json.pyGetD, Json.truthy]

/-- Witness for C5 (amended) at a concrete truthy error reply. -/
theorem c5_start_behavior_witness :
    startAcp "claude-agent-acp" .ok
        (some (mkErrorFields 1 [("message", Json.str "boom")])) =
      some (some "initialize failed: boom", false) :=
  (c5_start_behavior "claude-agent-acp" "m" none
      [("message", Json.str "boom")] Json.null).2.2.2.1 rfl

/-- C6: when the handshake result does not advertise the image prompt
capability, `start()` negotiates `_supports_images = False`, and then
every outbound prompt contains no image block regardless of the images
the caller supplies; the negotiated flag of a started client is never
mutated by later calls. -/
theorem c6_images_gated (binary : String) (r : Json)
    (h : supportsImagesFrom r = some false) :
    startAcp binary .ok (some (mkResultFields 1 r)) = some (none, false) ∧
    (∀ (images : List ImageSpec) (text : String),
        ∀ b ∈ promptBlocksFor false images text, b.isImage = false) := by
  constructor
  · simp [startAcp, callPending, processArrival, applyResponse, mkResultFields,
      Json.hasField, Json.lookupField, Json.objGetD, Json.pyGetD, Json.truthy, h]
  · intro images text b hb
    rw [promptBlocksFor, if_neg (by simp)] at hb
    rcases List.mem_append.mp hb with h2 | h2
    · cases h2
    · rcases List.mem_singleton.mp h2 with rfl
      rfl

/-- Witness for C6 at a handshake reply with no prompt capabilities. -/
theorem c6_images_gated_witness :
    startAcp "claude-agent-acp" .ok (some (mkResultFields 1 c6reply)) =
      some (none, false) ∧
    ∀ b ∈ promptBlocksFor false [⟨"image/png", "AAAA"⟩] "Fråga: hej?",
      b.isImage = false :=
  ⟨(c6_images_gated "claude-agent-acp" c6reply rfl).1,
   (c6_images_gated "claude-agent-acp" c6reply rfl).2 [⟨"image/png", "AAAA"⟩]
     "Fråga: hej?"⟩

/-- C7: a line that fails to decode as JSON is skipped and the read loop
continues: a following well-formed response for an outstanding request id
still gets its result (or its error message) attached and its completion
event set. -/
theorem c7_malformed_line_skipped (st : ClientState) (n : Int) (e : Entry)
    (r : Json) (ef : List (String × Json)) (hn : st.pending n = some e) :
    ((readLoop st [.malformed, .msg (mkResultMsg n r)]).pending n =
      some { e with result := r, eventSet := true }) ∧
    ((readLoop st [.malformed, .msg (mkErrorMsg n ef)]).pending n =
      some { e with
        error := Json.objGetD ef "message" (.str (Json.pyStr (.obj ef))),
        eventSet := true }) := by
  constructor
  · simp [readLoop, dispatch, mkResultMsg, mkResultFields, applyResponse,
      Json.hasField, Json.lookupField, Json.objGetD, Json.isStr, hn]
  · simp [readLoop, dispatch, mkErrorMsg, mkErrorFields, applyResponse,
      Json.hasField, Json.lookupField, Json.objGetD, Json.pyGetD, Json.isStr, hn]

/-- Witness for C7 on a concrete one-entry pending table. -/
theorem c7_malformed_line_skipped_witness :
    ((readLoop c7state [.malformed, .msg (mkResultMsg 7 (.str "ok"))]).pending 7 =
      some { result := .str "ok", error := .null, eventSet := true }) ∧
    ((readLoop c7state
        [.malformed, .msg (mkErrorMsg 7 [("message", .str "boom")])]).pending 7 =
      some { result := .null, error := .str "boom", eventSet := true }) :=
  c7_malformed_line_skipped c7state 7 {} (.str "ok") [("message", .str "boom")] rfl

/-- Counterexample to C10: a chunk notification whose content is
`{"text": 1}` — a truthy non-string payload — is passed to the registered
chunk callback, so the callback is not invoked only on non-empty
strings. -/
theorem c10_truthy_nonstring_counterexample :
    (dispatch c10state (chunkNotif "sess" (.obj [("text", .num 1)]))).map
        ClientState.chunkCalls = some [("sess", Json.num 1)] ∧
    isNonEmptyStr (Json.num 1) = false :=
  ⟨rfl, rfl⟩

/-- C10 (amended): for a well-formed `agent_message_chunk` notification
the registered callback is invoked exactly when the extracted text payload
is truthy and a callback is registered for the session; a notification
with an empty or missing `"text"` field, or a non-object content, is
dropped.  Any truthy payload — not only a non-empty string — is passed
through. -/
theorem c10_chunk_gating (st : ClientState) (sid : String) (content : Json) :
    dispatch st (chunkNotif sid content) =
      some { st with chunkCalls := st.chunkCalls ++
        (if (chunkText content).truthy && st.callbacks.contains sid then
          [(sid, chunkText content)] else []) } := by
  by_cases ht : (chunkText content).truthy
  · by_cases hm : sid ∈ st.callbacks
    · simp [dispatch, chunkNotif, Json.objGetD, Json.lookupField, Json.pyGet,
        Json.pyGetD, Json.isStr, ht, hm]
    · simp [dispatch, chunkNotif, Json.objGetD, Json.lookupField, Json.pyGet,
        Json.pyGetD, Json.isStr, ht, hm]
  · simp [dispatch, chunkNotif, Json.objGetD, Json.lookupField, Json.pyGet,
      Json.pyGetD, Json.isStr, ht]

end AcpClient



namespace DirectAi

open AcpClient

/-- A single terminal event is a one-terminal trace. -/
theorem oneTerminalLast_single (t : AiEvent) (h : AiEvent.isTerminal t = true) :
    oneTerminalLast [t] :=
  ⟨[], t, rfl, h, by simp⟩

/-- The Claude SSE loop emits only chunk and tool-use events. -/
theorem claudeLoop_not_terminal (cancel : Nat → Bool) (tb : Bool)
    (pj : String → Option Json) :
    ∀ (lines : List SseLine) (i : Nat) (tn : Json) (parts : List String),
      ∀ e ∈ (claudeLoop cancel tb pj i tn parts lines).1,
        AiEvent.isTerminal e = false := by
  intro lines
  induction lines with
  | nil => intro i tn parts e he; cases he
  | cons l ls ih =>
    intro i tn parts e he
    cases l with
    | junk =>
      rw [claudeLoop] at he
      by_cases hc : cancel i
      · rw [if_pos hc] at he; cases he
      · rw [if_neg hc] at he
        exact ih (i + 1) tn parts e he
    | doneMarker =>
      rw [claudeLoop] at he
      by_cases hc : cancel i
      · rw [if_pos hc] at he; cases he
      · rw [if_neg hc] at he; cases he
    | malformed =>
      rw [claudeLoop] at he
      by_cases hc : cancel i
      · rw [if_pos hc] at he; cases he
      · rw [if_neg hc] at he
        exact ih (i + 1) tn parts e he
    | event ev =>
      cases ev with
      | blockStartTool name =>
        rw [claudeLoop] at he
        by_cases hc : cancel i
        · rw [if_pos hc] at he; cases he
        · rw [if_neg hc] at he
          exact ih (i + 1) name [] e he
      | blockStartOther =>
        rw [claudeLoop] at he
        by_cases hc : cancel i
        · rw [if_pos hc] at he; cases he
        · rw [if_neg hc] at he
          exact ih (i + 1) tn parts e he
      | textDelta t =>
        rw [claudeLoop] at he
        by_cases hc : cancel i
        · rw [if_pos hc] at he; cases he
        · rw [if_neg hc] at he
          rcases List.mem_cons.mp he with rfl | he2
          · rfl
          · exact ih (i + 1) tn parts e he2
      | inputJsonDelta f =>
        rw [claudeLoop] at he
        by_cases hc : cancel i
        · rw [if_pos hc] at he; cases he
        · rw [if_neg hc] at he
          exact ih (i + 1) tn (parts ++ [f]) e he
      | blockStop =>
        rw [claudeLoop] at he
        by_cases hc : cancel i
        · rw [if_pos hc] at he; cases he
        · rw [if_neg hc] at he
          rcases List.mem_append.mp he with he2 | he2
          · by_cases hfire : tn.truthy && !parts.isEmpty && tb
            · rw [if_pos hfire] at he2
              cases hpj : pj (String.join parts) with
              | some input =>
                rw [hpj] at he2
                rcases List.mem_singleton.mp he2 with rfl
                rfl
              | none => rw [hpj] at he2; cases he2
            · rw [if_neg hfire] at he2
              cases he2
          · exact ih (i + 1) Json.null [] e he2
      | otherEvent =>
        rw [claudeLoop] at he
        by_cases hc : cancel i
        · rw [if_pos hc] at he; cases he
        · rw [if_neg hc] at he
          exact ih (i + 1) tn parts e he

/-- `_ask_claude` invokes exactly one terminal callback, last. -/
theorem askClaude_oneTerminal (apiKey : String) (http : HttpOutcome SseLine)
    (tb : Bool) (pj : String → Option Json) (cancel : Nat → Bool) :
    oneTerminalLast (askClaude apiKey http tb pj cancel) := by
  unfold askClaude
  by_cases hk : apiKey = ""
  · rw [if_pos hk]
    exact oneTerminalLast_single _ rfl
  · rw [if_neg hk]
    cases http with
    | httpError code body => exact oneTerminalLast_single _ rfl
    | raised m => exact oneTerminalLast_single _ rfl
    | stream lines failMsg =>
      dsimp only
      by_cases hb : (claudeLoop cancel tb pj 0 Json.null [] lines).2
      · rw [if_pos hb]
        exact ⟨_, .done, rfl, rfl, claudeLoop_not_terminal cancel tb pj lines 0 _ _⟩
      · rw [if_neg hb]
        cases failMsg with
        | none =>
          exact ⟨_, .done, rfl, rfl, claudeLoop_not_terminal cancel tb pj lines 0 _ _⟩
        | some m =>
          exact ⟨_, .error m, rfl, rfl, claudeLoop_not_terminal cancel tb pj lines 0 _ _⟩

/-- The OpenAI SSE loop emits only chunk events. -/
theorem oaiLoop_not_terminal (cancel : Nat → Bool) :
    ∀ (lines : List OaiLine) (i : Nat),
      ∀ e ∈ (oaiLoop cancel i lines).1, AiEvent.isTerminal e = false := by
  intro lines
  induction lines with
  | nil => intro i e he; cases he
  | cons l ls ih =>
    intro i e he
    cases l with
    | junk =>
      rw [oaiLoop] at he
      by_cases hc : cancel i
      · rw [if_pos hc] at he; cases he
      · rw [if_neg hc] at he; exact ih (i + 1) e he
    | doneMarker =>
      rw [oaiLoop] at he
      by_cases hc : cancel i
      · rw [if_pos hc] at he; cases he
      · rw [if_neg hc] at he; cases he
    | malformed =>
      rw [oaiLoop] at he
      by_cases hc : cancel i
      · rw [if_pos hc] at he; cases he
      · rw [if_neg hc] at he; exact ih (i + 1) e he
    | noChoices =>
      rw [oaiLoop] at he
      by_cases hc : cancel i
      · rw [if_pos hc] at he; cases he
      · rw [if_neg hc] at he; exact ih (i + 1) e he
    | choice content =>
      rw [oaiLoop] at he
      by_cases hc : cancel i
      · rw [if_pos hc] at he; cases he
      · rw [if_neg hc] at he
        dsimp only at he
        by_cases ht : content.truthy
        · rw [if_pos ht] at he
          rcases List.mem_cons.mp he with rfl | he2
          · rfl
          · exact ih (i + 1) e he2
        · rw [if_neg ht] at he
          exact ih (i + 1) e he

/-- `_ask_openai` invokes exactly one terminal callback, last. -/
theorem askOpenai_oneTerminal (apiKey : String) (http : HttpOutcome OaiLine)
    (cancel : Nat → Bool) :
    oneTerminalLast (askOpenai apiKey http cancel) := by
  unfold askOpenai
  by_cases hk : apiKey = ""
  · rw [if_pos hk]
    exact oneTerminalLast_single _ rfl
  · rw [if_neg hk]
    cases http with
    | httpError code body => exact oneTerminalLast_single _ rfl
    | raised m => exact oneTerminalLast_single _ rfl
    | stream lines failMsg =>
      dsimp only
      by_cases hb : (oaiLoop cancel 0 lines).2
      · rw [if_pos hb]
        exact ⟨_, .done, rfl, rfl, oaiLoop_not_terminal cancel lines 0⟩
      · rw [if_neg hb]
        cases failMsg with
        | none => exact ⟨_, .done, rfl, rfl, oaiLoop_not_terminal cancel lines 0⟩
        | some m => exact ⟨_, .error m, rfl, rfl, oaiLoop_not_terminal cancel lines 0⟩

/-- When the ACP worker does not raise, its trace ends in exactly one
terminal callback. -/
theorem acpWorker_oneTerminal {binary : String} {st : AcpState}
    {key : Option String} {sys ctx q : String} {imgs : List ImageSpec}
    {o : AcpCallOracle} {cancel : Nat → Bool} {r : AcpCallResult}
    (h : acpWorker binary st key sys ctx q imgs o cancel = some r) :
    oneTerminalLast r.events := by
  simp only [acpWorker] at h
  split at h
  · exact Option.noConfusion h
  · injection h with h2
    subst h2
    exact oneTerminalLast_single _ rfl
  · split at h
    · exact Option.noConfusion h
    · injection h with h2
      subst h2
      exact oneTerminalLast_single _ rfl
    · injection h with h2
      subst h2
      exact sendPromptTrace_oneTerminal _ _ _

/-- Counterexample to C1: the claim as stated fails — when a fresh ACP
client receives an `initialize` reply whose result payload is the
non-object `5`, capability extraction raises `AttributeError` inside the
background worker thread; the worker dies and no terminal callback (and
no callback at all) is ever invoked for that `ask_ai_async` call. -/
theorem c1_nonobject_result_counterexample :
    ask_ai_async "claude-acp" "" "" "claude-agent-acp" ⟨false, false, []⟩ none
      "sys" "ctx" "q" [] false (fun _ => none) c1Oracle (fun _ => false) =
      none := rfl

/-- C1 (amended): whenever the `ask_ai_async` background worker completes
without raising — which it always does except on the ACP path when a
control reply carries a truthy non-object result payload — the
caller-callback trace contains exactly one terminal callback, it is the
last invocation, and every chunk/tool-use callback precedes it. -/
theorem c1_one_terminal (harness claudeKey openaiKey binary : String)
    (st : AcpState) (sessionKey : Option String) (sys ctx q : String)
    (images : List ImageSpec) (tb : Bool) (pj : String → Option Json)
    (o : AiOracle) (cancel : Nat → Bool) (tr : List AiEvent)
    (h : ask_ai_async harness claudeKey openaiKey binary st sessionKey
        sys ctx q images tb pj o cancel = some tr) :
    oneTerminalLast tr := by
  unfold ask_ai_async at h
  split at h
  · rcases Option.map_eq_some'.mp h with ⟨r, hr, rfl⟩
    exact acpWorker_oneTerminal hr
  · split at h
    · injection h with h2
      subst h2
      exact askOpenai_oneTerminal openaiKey o.openaiHttp cancel
    · injection h with h2
      subst h2
      exact askClaude_oneTerminal claudeKey o.claudeHttp tb pj cancel

/-- Witness for C1 (amended): a completed Claude-API call with an empty
stream delivers exactly the terminal `on_done`. -/
theorem c1_one_terminal_witness : oneTerminalLast [AiEvent.done] :=
  c1_one_terminal "claude-api" "key" "" "claude-agent-acp" ⟨false, false, []⟩
    none "" "" "q" [] false (fun _ => none) c1Oracle (fun _ => false)
    [AiEvent.done] rfl

end DirectAi


namespace DirectAi

open AcpClient

/-- Once the cancel guard reads false forever, no chunk is delivered. -/
theorem deliverChunks_nil_of_false (d : Nat → Bool) (k : Nat)
    (h : ∀ i, k < i → d i = false) :
    ∀ (cs : List Json) (i : Nat), k < i → deliverChunks d i cs = [] := by
  intro cs
  induction cs with
  | nil => intro i _; rfl
  | cons c rest ih =>
    intro i hi
    rw [deliverChunks, h i hi]
    simp only [Bool.false_eq_true, if_false, List.nil_append]
    exact ih (i + 1) (by omega)

/-- Chunk delivery with a guard that reads false after index `k` equals
delivery of the first `k + 1` chunks only. -/
theorem deliverChunks_take (d : Nat → Bool) (k : Nat)
    (h : ∀ i, k < i → d i = false) :
    ∀ (cs : List Json) (i : Nat),
      deliverChunks d i cs = deliverChunks d i (cs.take (k + 1 - i)) := by
  intro cs
  induction cs with
  | nil => intro i; rw [List.take_nil]
  | cons c rest ih =>
    intro i
    by_cases hi : k < i
    · have h0 : k + 1 - i = 0 := by omega
      rw [h0, List.take_zero, deliverChunks_nil_of_false d k h (c :: rest) i hi]
      rfl
    · have h1 : k + 1 - i = (k - i) + 1 := by omega
      rw [h1, List.take_succ_cons]
      rw [deliverChunks, deliverChunks]
      have h2 := ih (i + 1)
      have h3 : k + 1 - (i + 1) = k - i := by omega
      rw [h3] at h2
      rw [h2]

/-- The Claude loop with a cancel token set after line index `k` emits the
same events as on the stream truncated to the first `k + 1` lines. -/
theorem claudeLoop_events_take (cancel : Nat → Bool) (tb : Bool)
    (pj : String → Option Json) (k : Nat)
    (h : ∀ i, k < i → cancel i = true) :
    ∀ (lines : List SseLine) (i : Nat) (tn : Json) (parts : List String),
      (claudeLoop cancel tb pj i tn parts lines).1 =
        (claudeLoop cancel tb pj i tn parts (lines.take (k + 1 - i))).1 := by
  intro lines
  induction lines with
  | nil => intro i tn parts; rw [List.take_nil]
  | cons l ls ih =>
    intro i tn parts
    by_cases hi : k < i
    · have h0 : k + 1 - i = 0 := by omega
      rw [h0, List.take_zero]
      cases l with
      | junk => simp [claudeLoop, h i hi]
      | doneMarker => simp [claudeLoop, h i hi]
      | malformed => simp [claudeLoop, h i hi]
      | event ev => cases ev <;> simp [claudeLoop, h i hi]
    · have h1 : k + 1 - i = (k - i) + 1 := by omega
      have h3 : k + 1 - (i + 1) = k - i := by omega
      rw [h1, List.take_succ_cons]
      by_cases hc : cancel i
      · cases l with
        | junk => simp [claudeLoop, hc]
        | doneMarker => simp [claudeLoop, hc]
        | malformed => simp [claudeLoop, hc]
        | event ev => cases ev <;> simp [claudeLoop, hc]
      · have hc2 : cancel i = false := by simpa using hc
        cases l with
        | junk =>
          simp only [claudeLoop, hc2, Bool.false_eq_true, if_false]
          have h2 := ih (i + 1) tn parts
          rw [h3] at h2
          exact h2
        | doneMarker => simp [claudeLoop, hc2]
        | malformed =>
          simp only [claudeLoop, hc2, Bool.false_eq_true, if_false]
          have h2 := ih (i + 1) tn parts
          rw [h3] at h2
          exact h2
        | event ev =>
          cases ev with
          | blockStartTool name =>
            simp only [claudeLoop, hc2, Bool.false_eq_true, if_false]
            have h2 := ih (i + 1) name []
            rw [h3] at h2
            exact h2
          | blockStartOther =>
            simp only [claudeLoop, hc2, Bool.false_eq_true, if_false]
            have h2 := ih (i + 1) tn parts
            rw [h3] at h2
            exact h2
          | textDelta t =>
            simp only [claudeLoop, hc2, Bool.false_eq_true, if_false]
            have h2 := ih (i + 1) tn parts
            rw [h3] at h2
            rw [h2]
          | inputJsonDelta f =>
            simp only [claudeLoop, hc2, Bool.false_eq_true, if_false]
            have h2 := ih (i + 1) tn (parts ++ [f])
            rw [h3] at h2
            exact h2
          | blockStop =>
            simp only [claudeLoop, hc2, Bool.false_eq_true, if_false]
            have h2 := ih (i + 1) Json.null []
            rw [h3] at h2
            rw [h2]
          | otherEvent =>
            simp only [claudeLoop, hc2, Bool.false_eq_true, if_false]
            have h2 := ih (i + 1) tn parts
            rw [h3] at h2
            exact h2

/-- C3: if the cancel token becomes set after chunk `k` has been
delivered, no later chunk reaches the caller — the trace equals that of
the stream truncated after chunk `k` — yet the terminal callback still
fires exactly once; the same holds for the Claude SSE loop, whose
cancellation check breaks the loop and still reaches `on_done`. -/
theorem c3_cancellation_suppresses (cancel cancelC : Nat → Bool) (k j : Nat)
    (chunks : List Json) (arrival : Option (List (String × Json)))
    (apiKey : String) (tb : Bool) (pj : String → Option Json)
    (lines : List SseLine) (failMsg : Option String)
    (hA : ∀ i, k < i → cancel i = true) (hB : ∀ i, j < i → cancelC i = true) :
    sendPromptTrace (fun i => !(cancel i)) chunks arrival =
      sendPromptTrace (fun i => !(cancel i)) (chunks.take (k + 1)) arrival ∧
    oneTerminalLast (sendPromptTrace (fun i => !(cancel i)) chunks arrival) ∧
    (claudeLoop cancelC tb pj 0 Json.null [] lines).1 =
      (claudeLoop cancelC tb pj 0 Json.null [] (lines.take (j + 1))).1 ∧
    oneTerminalLast (askClaude apiKey (.stream lines failMsg) tb pj cancelC) := by
  refine ⟨?_, sendPromptTrace_oneTerminal _ _ _, ?_,
    askClaude_oneTerminal apiKey (.stream lines failMsg) tb pj cancelC⟩
  · unfold sendPromptTrace
    have hd : ∀ i, k < i → (fun i => !(cancel i)) i = false := by
      intro i hi
      simp [hA i hi]
    have h2 := deliverChunks_take (fun i => !(cancel i)) k hd chunks 0
    rw [Nat.sub_zero] at h2
    rw [h2]
  · have h2 := claudeLoop_events_take cancelC tb pj j hB lines 0 Json.null []
    rw [Nat.sub_zero] at h2
    exact h2

/-- Witness for C3 with the token set from the third delivery on: of three
inbound chunks only the first two are delivered, and the terminal still
fires. -/
theorem c3_cancellation_suppresses_witness :
    sendPromptTrace (fun i => !(c3cancel i)) [.str "a", .str "b", .str "c"]
        none =
      sendPromptTrace (fun i => !(c3cancel i))
        ([Json.str "a", .str "b", .str "c"].take 2) none ∧
    oneTerminalLast
      (sendPromptTrace (fun i => !(c3cancel i)) [.str "a", .str "b", .str "c"]
        none) :=
  have h := c3_cancellation_suppresses c3cancel c3cancel 1 1
    [Json.str "a", .str "b", .str "c"] none "key" false (fun _ => none) [] none
    (fun _ hi => decide_eq_true hi) (fun _ hi => decide_eq_true hi)
  ⟨h.1, h.2.1⟩

end DirectAi


namespace DirectAi

open AcpClient

/-- On an already-used session key the prompt is the bare question. -/
theorem buildAcpPrompt_cached (sys ctx q : String) :
    buildAcpPrompt true sys ctx q = "Fråga: " ++ q := by
  simp [buildAcpPrompt]

/-- A call on a started client with a cached session key sends the bare
question and leaves the client and session state unchanged. -/
theorem acpWorker_cached (binary : String) (st : AcpState) (k : String)
    (sid : Json) (sys ctx q : String) (imgs : List ImageSpec)
    (o : AcpCallOracle) (cancel : Nat → Bool) (hs : st.started = true)
    (hk : k ≠ "") (hl : lookupStr st.sessions k = some sid) :
    acpWorker binary st (some k) sys ctx q imgs o cancel =
      some ⟨st, some ("Fråga: " ++ q), none,
            sendPromptTrace (fun i => !(cancel i)) o.chunks o.promptReply⟩ := by
  obtain ⟨s1, s2, s3⟩ := st
  dsimp only at hs hl
  subst hs
  simp [acpWorker, get_or_create_session, hk, hl, buildAcpPrompt]

/-- Every call of a sequence on a started client with a cached session
key sends exactly the bare question. -/
theorem acpSeqPrompts_cached (binary : String) (k : String) (sid : Json)
    (hk : k ≠ "") :
    ∀ (rest : List AcpSeqCall) (st : AcpState), st.started = true →
      lookupStr st.sessions k = some sid →
      acpSeqPrompts binary (some k) st rest =
        rest.map (fun c => some ("Fråga: " ++ c.userQuestion)) := by
  intro rest
  induction rest with
  | nil => intro st _ _; rfl
  | cons c cs ih =>
    intro st hs hl
    rw [acpSeqPrompts, acpWorker_cached binary st k sid c.systemPrompt
      c.cardContext c.userQuestion c.images c.oracle c.cancel hs hk hl]
    dsimp only
    rw [ih st hs hl]
    rfl

/-- C2: in a sequence of prompt calls sharing one non-empty session key
whose first call starts the client and creates the session successfully,
the first outbound prompt is the context-bearing first-turn prompt —
containing the system instructions and the card context as substrings —
and every later call sends exactly the bare question with nothing
prepended. -/
theorem c2_first_turn_context (binary k sid sys ctx q : String)
    (chs : List Json) (pr : Option (List (String × Json)))
    (cancel : Nat → Bool) (rest : List AcpSeqCall)
    (hk : k ≠ "") (hsid : sid ≠ "") :
    acpSeqPrompts binary (some k) ⟨false, false, []⟩
        (⟨sys, ctx, q, [],
          ⟨.ok, some (mkResultFields 1 (.obj [])),
           some (mkResultFields 2 (.obj [("sessionId", .str sid)])), chs, pr⟩,
          cancel⟩ :: rest) =
      some (buildAcpPrompt false sys ctx q) ::
        rest.map (fun c => some ("Fråga: " ++ c.userQuestion)) ∧
    (∃ a b, (buildAcpPrompt false sys ctx q).data = a ++ sys.data ++ b) ∧
    (∃ a b, (buildAcpPrompt false sys ctx q).data = a ++ ctx.data ++ b) := by
  refine ⟨?_, ?_, ?_⟩
  · have hsess : get_or_create_session [] (some k)
        (some (mkResultFields 2 (.obj [("sessionId", .str sid)]))) =
        some ([(k, .str sid)], .ok (.str sid)) := by
      simp [get_or_create_session, createSession, callPending, processArrival,
        applyResponse, mkResultFields, Json.hasField, Json.lookupField,
        Json.objGetD, Json.pyGet, Json.pyGetD, Json.truthy, lookupStr, hk, hsid]
    have hw : acpWorker binary ⟨false, false, []⟩ (some k) sys ctx q []
        ⟨.ok, some (mkResultFields 1 (.obj [])),
         some (mkResultFields 2 (.obj [("sessionId", .str sid)])), chs, pr⟩
        cancel =
        some ⟨⟨true, false, [(k, .str sid)]⟩,
              some (buildAcpPrompt false sys ctx q), none,
              sendPromptTrace (fun i => !(cancel i)) chs pr⟩ := by
      have hstart : startAcp binary .ok (some (mkResultFields 1 (.obj []))) =
          some (none, false) := rfl
      simp [acpWorker, hstart, hsess, lookupStr]
    rw [acpSeqPrompts, hw]
    dsimp only
    rw [acpSeqPrompts_cached binary k (.str sid) hk rest
      ⟨true, false, [(k, .str sid)]⟩ rfl (by simp [lookupStr])]
  · by_cases hsys : sys = ""
    · exact ⟨[], (buildAcpPrompt false sys ctx q).data, by simp [hsys]⟩
    · refine ⟨[], ("\n\n" ++ (if ctx ≠ "" then ctx ++ "\n\n" else "") ++
        ("Fråga: " ++ q)).data, ?_⟩
      simp [buildAcpPrompt, hsys, String.data_append]
  · by_cases hctx : ctx = ""
    · exact ⟨[], (buildAcpPrompt false sys ctx q).data, by simp [hctx]⟩
    · refine ⟨(sys ++ "\n\n").data, ("\n\n" ++ ("Fråga: " ++ q)).data, ?_⟩
      simp [buildAcpPrompt, hctx, String.data_append]

/-- Witness for C2: a concrete two-call sequence sends the full first-turn
prompt once and then only the bare question. -/
theorem c2_first_turn_context_witness :
    acpSeqPrompts "claude-agent-acp" (some "card-1") ⟨false, false, []⟩
        [c2call1, c2call2] =
      [some "SYS\n\nCTX\n\nFråga: Hur?", some "Fråga: Q2"] :=
  (c2_first_turn_context "claude-agent-acp" "card-1" "s-1" "SYS" "CTX" "Hur?"
    [] none (fun _ => false) [c2call2] (by decide) (by decide)).1

end DirectAi


end Anki
